import Mathlib

/-!
Verification development for the js-wacz WACZ assembly pipeline.

This file shallowly embeds the parts of `src/index.js` and
`src/utils/assertions.js` that the verified properties are about:

* the ZipNum shard loop of `writeIndexesToZip` (including its
  `upperBound = cdxArray.length - 1` clamp),
* the sorted B-tree used by `indexWARCs` / `harvestArraysFromTrees`,
  modelled as a strictly sorted association list with insert-if-absent
  (the interface contract of the `sorted-btree` dependency; its default
  string comparator is modelled as code-point lexicographic order, which
  coincides with raw UTF-8 byte order),
* `writePagesToZip`, `writeDatapackageToZip`, the constructor's option
  filtering, the output-file side effects, `addPage`, `process`, and the
  WACZ signature-format assertions (regexes embedded as decidable
  matchers; `X509Certificate` parsing and gzip/sha256 left as function
  parameters).

JavaScript strings are modelled as Lean `String`; byte buffers as
`List Nat`; absent (`undefined` / `null`) values as `Option`; thrown
exceptions as `Except String`.
-/

/-! ## String primitives

Core Lean `String` functions (`trim`, `toLower`, `endsWith`, ...) are
iterator-based and do not reduce in the kernel, so the JS string
operations used by the source are re-implemented on `String.data`.
-/

/-- Code-point lexicographic comparison of character lists; for valid
UTF-8 this is exactly raw byte order. Models the JS `<` comparison used
by the default comparator of the sorted-btree dependency. -/
def charsLt : List Char → List Char → Bool
  | _, [] => false
  | [], _ :: _ => true
  | a :: as, b :: bs => Nat.blt a.toNat b.toNat || (a == b && charsLt as bs)

/-- String comparison by raw code points (byte order for UTF-8). -/
def strLt (a b : String) : Bool := charsLt a.data b.data

/-- Model of `Char.toLower` restricted to ASCII, as used by
`toLowerCase` / `toLocaleLowerCase` on file names in the source. -/
def toLowerChar (c : Char) : Char :=
  if 'A' ≤ c ∧ c ≤ 'Z' then Char.ofNat (c.toNat + 32) else c

/-- JS `String.prototype.toLowerCase` (ASCII model). -/
def strToLower (s : String) : String := ⟨s.data.map toLowerChar⟩

/-- JS `String.prototype.endsWith`. -/
def strEndsWith (s suf : String) : Bool := suf.data.isSuffixOf s.data

/-- The whitespace characters stripped by JS `trim` (ASCII model). -/
def wsChar (c : Char) : Bool := c = ' ' || c = '\t' || c = '\n' || c = '\r'

/-- JS `String.prototype.trim`. -/
def strTrim (s : String) : String :=
  ⟨((s.data.dropWhile wsChar).reverse.dropWhile wsChar).reverse⟩

/-- JS truthiness of a string: non-empty. -/
def strTruthy (s : String) : Bool := !(s == "")

/-- `s.split(' ').slice(0, 1).join(' ')` from the IDX-line construction:
the prefix of `s` up to (excluding) the first space. -/
def firstTok (s : String) : String := ⟨s.data.takeWhile (fun c => !(c == ' '))⟩

/-- `basename` from `node:path` (POSIX model: the part after the last
slash). -/
def basenameOf (p : String) : String :=
  ⟨(p.data.reverse.takeWhile (fun c => !(c == '/'))).reverse⟩

/-- UTF-8/code-point bytes of a string, as a model of `Buffer.from(s)`
for the ASCII strings the pipeline produces. -/
def strBytes (s : String) : List Nat := s.data.map Char.toNat

/-! ## Sorted B-tree model

`src/index.js` keeps CDXJ lines and pages in `sorted-btree` instances and
only uses `setIfNotPresent`, `keysArray`, `valuesArray`, `length` and
`clear`. The tree is modelled as a strictly sorted association list; keys
are compared with `strLt`.
-/

/-- Association-list model of a `sorted-btree` instance. -/
abbrev BTreeM (α : Type) := List (String × α)

/-- Model of `BTree.setIfNotPresent`: insert `(k, v)` keeping the list
sorted; if `k` is already present the existing value is kept. -/
def setIfNotPresent {α : Type} (k : String) (v : α) : BTreeM α → BTreeM α
  | [] => [(k, v)]
  | (k', v') :: t =>
    if strLt k k' then (k, v) :: (k', v') :: t
    else if k = k' then (k', v') :: t
    else (k', v') :: setIfNotPresent k v t

/-- Model of `BTree.keysArray` (in-order keys). -/
def keysArray {α : Type} (t : BTreeM α) : List String := t.map Prod.fst

/-- Model of `BTree.valuesArray` (in-order values). -/
def valuesArray {α : Type} (t : BTreeM α) : List α := t.map Prod.snd

/-- Value stored under key `k`, if any. -/
def treeLookup {α : Type} (k : String) (t : BTreeM α) : Option α :=
  (t.find? (fun e => e.1 == k)).map Prod.snd

/-- The tree invariant: keys strictly ascending in `strLt`. -/
def TreeSorted {α : Type} (t : BTreeM α) : Prop :=
  List.Pairwise (fun a b => strLt a.1 b.1 = true) t

/-! ## ZipNum shard loop (`writeIndexesToZip`, src/index.js 421-504)

The loop `for (let i = 0; i < cdxArray.length; i += LIMIT)` computes
`upperBound = i + LIMIT`, clamps it to `cdxArray.length - 1` when it
exceeds the array length, gzips `cdxArray.slice(i, upperBound).join('')`,
appends the gzipped shard to the `index.cdx.gz` buffer and pushes one IDX
line. `gz` models `this.gzip` (pako Deflate) and `hexsha` the hex SHA-256
digest; both are kept as parameters since they are external libraries.
-/

/-- `ZIP_NUM_SHARED_INDEX_LIMIT` from src/index.js line 25. -/
def ZIP_NUM_SHARED_INDEX_LIMIT : Nat := 3000

/-- The `(i, upperBound)` pairs produced by the loop head, including the
`upperBound = cdxArray.length - 1` clamp of src/index.js lines 440-444. -/
def windowBounds (len : Nat) (i : Nat) : List (Nat × Nat) :=
  if _h : i < len then
    (i, if i + ZIP_NUM_SHARED_INDEX_LIMIT > len then len - 1
        else i + ZIP_NUM_SHARED_INDEX_LIMIT) ::
      windowBounds len (i + ZIP_NUM_SHARED_INDEX_LIMIT)
  else []
termination_by len - i
decreasing_by
  simp only [ZIP_NUM_SHARED_INDEX_LIMIT]
  omega

/-- `cdxArray.slice(i, upperBound).join('')` for a window `b`. -/
def shardSlice (cdxArray : List String) (b : Nat × Nat) : String :=
  String.join ((cdxArray.drop b.1).take (b.2 - b.1))

/-- The lines `cdxArray.slice(i, upperBound)` of a window, used to state
which CDXJ lines end up in which shard. -/
def windowLines (cdxArray : List String) (b : Nat × Nat) : List String :=
  (cdxArray.drop b.1).take (b.2 - b.1)

/-- All windows of CDXJ lines cut by the loop. -/
def cdxWindows (cdxArray : List String) : List (List String) :=
  (windowBounds cdxArray.length 0).map (windowLines cdxArray)

/-- The JSON object pushed per shard (src/index.js lines 453-458). -/
structure IdxMeta where
  offset : Nat
  length : Nat
  digest : String
  filename : String
deriving DecidableEq, Repr

/-- `JSON.stringify` of an `IdxMeta` (insertion-ordered keys, no spaces). -/
def stringifyIdxMeta (m : IdxMeta) : String :=
  "\x7b\"offset\":" ++ toString m.offset ++ ",\"length\":" ++ toString m.length
    ++ ",\"digest\":\"" ++ m.digest ++ "\",\"filename\":\"" ++ m.filename
    ++ "\"\x7d"

/-- Loop state: the growing `cdx` buffer, the running `idxOffset`, and the
IDX entries as (first token, JSON meta) pairs. -/
structure ShardAcc where
  cdx : List Nat
  idxOffset : Nat
  idxEntries : List (String × IdxMeta)
deriving DecidableEq, Repr

/-- One iteration of the shard loop (src/index.js lines 432-467). -/
def shardStep (gz : String → List Nat) (hexsha : List Nat → String)
    (cdxArray : List String) (acc : ShardAcc) (b : Nat × Nat) : ShardAcc :=
  let cdxSliceGzipped := gz (shardSlice cdxArray b)
  let idxForSlice := cdxArray.getD b.1 ""
  let idxMeta : IdxMeta :=
    { offset := acc.idxOffset
      length := cdxSliceGzipped.length
      digest := "sha256:" ++ hexsha cdxSliceGzipped
      filename := "index.cdx.gz" }
  { cdx := acc.cdx ++ cdxSliceGzipped
    idxOffset := acc.idxOffset + cdxSliceGzipped.length
    idxEntries := acc.idxEntries ++ [(firstTok idxForSlice, idxMeta)] }

/-- The whole shard loop of `writeIndexesToZip`. -/
def writeShards (gz : String → List Nat) (hexsha : List Nat → String)
    (cdxArray : List String) : ShardAcc :=
  (windowBounds cdxArray.length 0).foldl (shardStep gz hexsha cdxArray)
    ⟨[], 0, []⟩

/-- The gzipped shards in order. -/
def shardsOf (gz : String → List Nat) (cdxArray : List String) :
    List (List Nat) :=
  (windowBounds cdxArray.length 0).map (fun b => gz (shardSlice cdxArray b))

/-- One rendered IDX line (src/index.js line 463). -/
def idxLineOfEntry (e : String × IdxMeta) : String :=
  e.1 ++ " " ++ stringifyIdxMeta e.2 ++ "\n"

/-- The `!meta` header line of `index.idx` (src/index.js line 486). -/
def META_LINE : String :=
  "!meta 0 \x7b\"format\": \"cdxj-gzip-1.0\", \"filename\": \"index.cdx.gz\"\x7d\n"

/-- `this.idxArray` after the loop, rendered. -/
def idxArrayOf (gz : String → List Nat) (hexsha : List Nat → String)
    (cdxArray : List String) : List String :=
  (writeShards gz hexsha cdxArray).idxEntries.map idxLineOfEntry

/-- The full text of `indexes/index.idx` (src/index.js lines 486-489). -/
def idxFileOf (gz : String → List Nat) (hexsha : List Nat → String)
    (cdxArray : List String) : String :=
  (idxArrayOf gz hexsha cdxArray).foldl (fun acc e => acc ++ e) META_LINE

/-- Closed-form IDX entries starting at offset `off`, used to
characterise the loop. -/
def entriesFrom (gz : String → List Nat) (hexsha : List Nat → String)
    (cdxArray : List String) : Nat → List (Nat × Nat) →
    List (String × IdxMeta)
  | _, [] => []
  | off, b :: bs =>
      (firstTok (cdxArray.getD b.1 ""),
        { offset := off
          length := (gz (shardSlice cdxArray b)).length
          digest := "sha256:" ++ hexsha (gz (shardSlice cdxArray b))
          filename := "index.cdx.gz" }) ::
        entriesFrom gz hexsha cdxArray
          (off + (gz (shardSlice cdxArray b)).length) bs

/-- Default entry used with `List.getD`. -/
def dfltEntry : String × IdxMeta := ("", ⟨0, 0, "", ""⟩)

/-! ## Signature-format assertions (`src/utils/assertions.js`)

The regex matchers are embedded as decidable functions on `String.data`,
with the same anchoring as the source: the SHA-256 and Base64 patterns
are anchored (`^...$`), while the ISO-8601 and domain-name patterns are
unanchored searches. `X509Certificate` parsing (used by
`assertPEMCertificateChain`) is kept as a parameter.
-/

/-- `[0-9]` -/
def isDigitCh (c : Char) : Bool := '0' ≤ c && c ≤ '9'

/-- `[A-Fa-f0-9]` -/
def isHexCh (c : Char) : Bool :=
  isDigitCh c || ('a' ≤ c && c ≤ 'f') || ('A' ≤ c && c ≤ 'F')

/-- `[A-Za-z0-9+/]` -/
def isB64Ch (c : Char) : Bool :=
  isDigitCh c || ('a' ≤ c && c ≤ 'z') || ('A' ≤ c && c ≤ 'Z') || c = '+'
    || c = '/'

/-- `/^sha256:[A-Fa-f0-9]{64}$/` from `assertSHA256WithPrefix`. -/
def sha256Match (s : String) : Bool :=
  s.data.take 7 == "sha256:".data
    && s.data.length == 71
    && (s.data.drop 7).all isHexCh

/-- Tail groups of `/^(?:[A-Za-z0-9+/]{4})*(?:[A-Za-z0-9+/]{2}==|[A-Za-z0-9+/]{3}=)?$/`
from `assertBase64` (anchored; the empty string matches). -/
def b64Groups : List Char → Bool
  | [] => true
  | c1 :: c2 :: c3 :: c4 :: rest =>
      if rest.isEmpty then
        isB64Ch c1 && isB64Ch c2
          && ((isB64Ch c3 && (isB64Ch c4 || c4 = '='))
            || (c3 = '=' && c4 = '='))
      else isB64Ch c1 && isB64Ch c2 && isB64Ch c3 && isB64Ch c4
        && b64Groups rest
  | _ => false

/-- `assertBase64`'s matcher. -/
def base64Match (s : String) : Bool := b64Groups s.data

/-- `([+-][0-2]\d:[0-5]\d|Z)` as a prefix of the remaining characters. -/
def tzMatch : List Char → Bool
  | 'Z' :: _ => true
  | s :: a :: b :: ':' :: c :: d :: _ =>
      (s = '+' || s = '-') && ('0' ≤ a && a ≤ '2') && isDigitCh b
        && ('0' ≤ c && c ≤ '5') && isDigitCh d
  | _ => false

/-- `\d+` followed by a timezone, as a prefix (greedy digits; the
timezone alternatives start with non-digits, so greediness is exact). -/
def fracDigitsTz : List Char → Bool
  | [] => false
  | c :: rest => if isDigitCh c then fracDigitsTz rest else tzMatch (c :: rest)

/-- `\d+(...)` with at least one digit, then timezone. -/
def fracThenTz : List Char → Bool
  | c :: rest => isDigitCh c && fracDigitsTz rest
  | [] => false

/-- `\d{4}-[01]\d-[0-3]\dT[0-2]\d:[0-5]\d` as a prefix; returns the rest. -/
def dateTimeLead : List Char → Option (List Char)
  | y1 :: y2 :: y3 :: y4 :: '-' :: m1 :: m2 :: '-' :: d1 :: d2 :: 'T'
      :: h1 :: h2 :: ':' :: mi1 :: mi2 :: rest =>
      if isDigitCh y1 && isDigitCh y2 && isDigitCh y3 && isDigitCh y4
          && ('0' ≤ m1 && m1 ≤ '1') && isDigitCh m2
          && ('0' ≤ d1 && d1 ≤ '3') && isDigitCh d2
          && ('0' ≤ h1 && h1 ≤ '2') && isDigitCh h2
          && ('0' ≤ mi1 && mi1 ≤ '5') && isDigitCh mi2
      then some rest else none
  | _ => none

/-- `[0-5]\d` seconds then the given continuation. -/
def secondsThen (cont : List Char → Bool) : List Char → Bool
  | ':' :: s1 :: s2 :: rest =>
      ('0' ≤ s1 && s1 ≤ '5') && isDigitCh s2 && cont rest
  | _ => false

/-- One of the three alternatives of `assertISO8601Date`'s regex,
matching at the current position (a prefix; the regex is unanchored so
trailing characters are ignored). -/
def isoMatchAt (l : List Char) : Bool :=
  match dateTimeLead l with
  | none => false
  | some rest =>
      secondsThen (fun r => match r with
        | '.' :: r2 => fracThenTz r2
        | _ => false) rest
      || secondsThen tzMatch rest
      || tzMatch rest

/-- Unanchored search: does any position match? -/
def containsMatch (f : List Char → Bool) : List Char → Bool
  | [] => f []
  | c :: rest => f (c :: rest) || containsMatch f rest

/-- `assertISO8601Date`'s matcher: the (unanchored) regex occurs
somewhere in the string. -/
def iso8601Match (s : String) : Bool := containsMatch isoMatchAt s.data

/-- A spec-side anchored variant, following the claim's words "created is
an ISO-8601 date string": the whole string is one ISO-8601 date-time. -/
def specISO8601Anchored (s : String) : Bool :=
  match dateTimeLead s.data with
  | none => false
  | some rest =>
      secondsThen (fun r => match r with
        | '.' :: r2 =>
            match r2.dropWhile isDigitCh with
            | ['Z'] => !r2.isEmpty && (r2.takeWhile isDigitCh ≠ [])
            | s :: a :: b :: ':' :: c :: d :: [] =>
                (r2.takeWhile isDigitCh ≠ [])
                  && ((s = '+' || s = '-') && ('0' ≤ a && a ≤ '2') && isDigitCh b
                    && ('0' ≤ c && c ≤ '5') && isDigitCh d)
            | _ => false
        | ['Z'] => true
        | s :: a :: b :: ':' :: c :: d :: [] =>
            (s = '+' || s = '-') && ('0' ≤ a && a ≤ '2') && isDigitCh b
              && ('0' ≤ c && c ≤ '5') && isDigitCh d
        | _ => false) rest
      || (match rest with
          | ['Z'] => true
          | s :: a :: b :: ':' :: c :: d :: [] =>
              (s = '+' || s = '-') && ('0' ≤ a && a ≤ '2') && isDigitCh b
                && ('0' ≤ c && c ≤ '5') && isDigitCh d
          | _ => false)

/-- `[a-z0-9]` (lowercase only, as in `assertDomainName`'s regex). -/
def isDomAl (c : Char) : Bool := isDigitCh c || ('a' ≤ c && c ≤ 'z')

/-- `[a-z0-9-]` -/
def isDomCh (c : Char) : Bool := isDomAl c || c = '-'

/-- `[a-z0-9](?:[a-z0-9-]{0,61}[a-z0-9])?` : a label of 1-63 chars,
alphanumeric at both ends, hyphens allowed inside. -/
def labelShape (l : List Char) : Bool :=
  match l with
  | [] => false
  | c :: rest =>
      isDomAl c && l.length ≤ 63 && rest.all isDomCh
        && isDomAl (l.getLastD c)

/-- `[a-z0-9][a-z0-9-]{0,61}[a-z0-9]` matching as a prefix of `l`
(existentially over the repetition count, as regex backtracking does). -/
def finalLabelTail : List Char → Nat → Bool
  | [], _ => false
  | _ :: _, 0 => false
  | c :: rest, fuel + 1 => isDomAl c || (isDomCh c && finalLabelTail rest fuel)

/-- The final label of the domain regex, matching as a prefix. -/
def finalLabelAt : List Char → Bool
  | c :: rest => isDomAl c && finalLabelTail rest 62
  | [] => false

/-- All suffixes reachable by consuming one `label.` prefix. -/
def labelDotRests (l : List Char) : List (List Char) :=
  (List.range 63).filterMap (fun n =>
    let lab := l.take (n + 1)
    if lab.length = n + 1 && labelShape lab then
      match l.drop (n + 1) with
      | '.' :: r => some r
      | _ => none
    else none)

/-- `(?:label\.)+final` matching at the current position, existentially
over label splits (regex backtracking); `fuel` bounds the recursion and
is instantiated with the list length (each step consumes ≥ 2 chars). -/
def domainSeqAt (fuel : Nat) (l : List Char) : Bool :=
  match fuel with
  | 0 => false
  | fuel + 1 =>
      (labelDotRests l).any (fun r => finalLabelAt r || domainSeqAt fuel r)

/-- `assertDomainName`'s matcher (unanchored search). -/
def domainMatch (s : String) : Bool :=
  containsMatch (fun l => domainSeqAt l.length l) s.data

/-- The JSON object returned by an authsign-style signing server.
Fields are `Option` because JS objects may simply lack them; all
matchers fail on `undefined` (`val?.match?.(...)`). -/
structure SignedData where
  hash : Option String := none
  created : Option String := none
  software : Option String := none
  signature : Option String := none
  publicKey : Option String := none
  domain : Option String := none
  domainCert : Option String := none
  timeSignature : Option String := none
  timestampCert : Option String := none
  crossSignedCert : Option String := none
deriving DecidableEq, Repr

/-- `val?.match?.(re)`-style application of a matcher to a maybe-absent
value: absent fails. -/
def optMatch (f : String → Bool) : Option String → Bool
  | some s => f s
  | none => false

/-- JS truthiness of a maybe-absent string. -/
def optTruthy : Option String → Bool
  | some s => strTruthy s
  | none => false

/-- `assertString`'s matcher: `val?.constructor === String`. Any string
passes, including the empty string. -/
def stringMatch : Option String → Bool
  | some _ => true
  | none => false

/-- `assertValidWACZSignatureFormat` (src/utils/assertions.js 101-133)
as a Boolean: whether the assertion runs without throwing. `pem` models
`new X509Certificate(val)` succeeding. -/
def assertValidWACZSignatureFormat (pem : String → Bool) (d : SignedData) :
    Bool :=
  optMatch sha256Match d.hash
    && optMatch iso8601Match d.created
    && stringMatch d.software
    && optMatch base64Match d.signature
    && (if optTruthy d.publicKey then optMatch base64Match d.publicKey
        else optMatch domainMatch d.domain && optMatch pem d.domainCert
          && optMatch base64Match d.timeSignature
          && optMatch pem d.timestampCert)
    && (if optTruthy d.crossSignedCert then optMatch pem d.crossSignedCert
        else true)

/-! ## Data model and pipeline (`src/index.js`)

External effects are parameters: `gz` (pako gzip), `hexsha` (hex SHA-256
digest), `shaFile`/`fileSize` (hashing and stat of input WARC files),
`renderDatapackage` (`JSON.stringify(..., null, 2)`), `pem`
(X509 parsing), `urlParse` (`new URL(u).href`, `none` when the
constructor throws), `dateParse` (`new Date(x).toISOString()`, `none`
when it throws), `globSync` (file-glob expansion).
-/

/-- A `WACZPage` (src/types.js): `id` is a 32-hex uuid. -/
structure WACZPage where
  id : String
  url : String
  title : Option String := none
  ts : Option String := none
deriving DecidableEq, Repr

/-- A `WACZDatapackageResource` entry. `bytes` is `Option` because the
source passes `string.byteLength` (which is `undefined` on JS strings)
for `index.idx` and `pages.jsonl`. -/
structure WACZDatapackageResource where
  name : String
  path : String
  hash : String
  bytes : Option Nat
deriving DecidableEq, Repr

/-- The per-file result of the `indexWARC` worker: CDXJ lines and
detected pages. The worker itself lives in `src/workers/indexWARC.js`. -/
structure WorkerResult where
  cdx : List String
  pages : List WACZPage
deriving DecidableEq, Repr

/-- `JSON.stringify(page)`: insertion-ordered keys, absent fields
omitted (ASCII model without JSON string escaping). -/
def stringifyPage (p : WACZPage) : String :=
  "\x7b\"id\":\"" ++ p.id ++ "\",\"url\":\"" ++ p.url ++ "\""
    ++ (match p.title with
        | some t => ",\"title\":\"" ++ t ++ "\""
        | none => "")
    ++ (match p.ts with
        | some t => ",\"ts\":\"" ++ t ++ "\""
        | none => "")
    ++ "\x7d"

/-- The `pages.jsonl` header line (src/index.js line 516). -/
def PAGES_HEADER : String :=
  "\x7b\"format\": \"json-pages-1.0\", \"id\": \"pages\", \"title\": \"All Pages\"\x7d\n"

/-- The `datapackage.json` object (src/index.js lines 576-596). -/
structure Datapackage where
  created : String
  wacz_version : String
  software : String
  resources : List WACZDatapackageResource
  title : String
  description : String
  mainPageUrl : Option String := none
  mainPageDate : Option String := none
  extras : Option String := none
deriving DecidableEq, Repr

/-- The mutable state of a `WACZ` instance (the class fields used by the
modelled methods). `zipNames` records `archiveStream.append` calls;
`outputStreamOpen` records `createWriteStream(this.output)`. -/
structure RunState where
  ready : Bool := false
  detectPages : Bool := true
  file : Option String := none
  output : String := ""
  url : Option String := none
  ts : String := ""
  title : Option String := none
  description : Option String := none
  signingUrl : Option String := none
  signingToken : Option String := none
  datapackageExtras : Option String := none
  WARCs : List String := []
  cdxTree : BTreeM Bool := []
  pagesTree : BTreeM WACZPage := []
  cdxArray : List String := []
  idxArray : List String := []
  pagesArray : List WACZPage := []
  resources : List WACZDatapackageResource := []
  zipNames : List String := []
  outputStreamOpen : Option String := none
  datapackageDate : Option String := none
  zipFinalized : Bool := false
deriving DecidableEq, Repr, Inhabited

/-- `readyStateCheck` (src/index.js lines 351-355). -/
def readyStateCheck (s : RunState) : Except String Unit :=
  if s.ready = true then Except.ok ()
  else Except.error "Not enough information was provided for processing to start."

/-- `indexWARCs` (src/index.js lines 387-401): each worker result is
merged into the trees with `setIfNotPresent`; `results` lists the
per-file results in completion order. -/
def indexWARCs (results : List WorkerResult) (s : RunState) :
    Except String RunState :=
  match readyStateCheck s with
  | Except.error e => Except.error e
  | Except.ok _ => Except.ok { s with
      cdxTree := results.foldl
        (fun t r => r.cdx.foldl (fun t v => setIfNotPresent v true t) t)
        s.cdxTree
      pagesTree := results.foldl
        (fun t r => r.pages.foldl (fun t p => setIfNotPresent p.url p t) t)
        s.pagesTree }

/-- `harvestArraysFromTrees` (src/index.js lines 407-415). -/
def harvestArraysFromTrees (s : RunState) : Except String RunState :=
  match readyStateCheck s with
  | Except.error e => Except.error e
  | Except.ok _ => Except.ok { s with
      cdxArray := keysArray s.cdxTree
      cdxTree := []
      pagesArray := valuesArray s.pagesTree
      pagesTree := [] }

/-- The text of `indexes/index.idx` built from an instance `idxArray`
(src/index.js lines 486-489). -/
def idxTextOf (idxArray : List String) : String :=
  idxArray.foldl (fun acc e => acc ++ e) META_LINE

/-- `writeIndexesToZip` (src/index.js lines 421-504) as a state step.
When the Archiver stream has already been finalized, its first
`archiveStream.append` (line 470) emits a QUEUECLOSED error that throws
inside the first `try` block, so the step fails with that block's catch
message (line 480). -/
def writeIndexesToZip (gz : String → List Nat) (hexsha : List Nat → String)
    (s : RunState) : Except String RunState :=
  match readyStateCheck s with
  | Except.error e => Except.error e
  | Except.ok _ =>
      if s.zipFinalized = true then
        Except.error "An error occurred while generating \"indexes/index.cdx.gz\"."
      else
      let acc := writeShards gz hexsha s.cdxArray
      let idxArray := s.idxArray ++ acc.idxEntries.map idxLineOfEntry
      let idx := idxTextOf idxArray
      Except.ok { s with
        idxArray := idxArray
        zipNames := s.zipNames ++ ["indexes/index.cdx.gz", "indexes/index.idx"]
        resources := s.resources ++
          [{ name := "index.cdx.gz"
             path := "indexes/index.cdx.gz"
             hash := "sha256:" ++ hexsha acc.cdx
             bytes := some acc.cdx.length },
           { name := "index.idx"
             path := "indexes/index.idx"
             hash := "sha256:" ++ hexsha (strBytes idx)
             bytes := none }] }

/-- The text of `pages/pages.jsonl` built from the pages array
(src/index.js lines 516-520). -/
def pagesJSONLOf (pages : List WACZPage) : String :=
  pages.foldl (fun acc p => acc ++ stringifyPage p ++ "\n") PAGES_HEADER

/-- `writePagesToZip` (src/index.js lines 510-534). The append on a
finalized archive throws inside the `try`, yielding the catch message
(line 533). -/
def writePagesToZip (hexsha : List Nat → String) (s : RunState) :
    Except String RunState :=
  match readyStateCheck s with
  | Except.error e => Except.error e
  | Except.ok _ =>
      if s.zipFinalized = true then
        Except.error "An error occurred while generating \"pages/pages.jsonl\"."
      else
      let pagesJSONL := pagesJSONLOf s.pagesArray
      Except.ok { s with
        zipNames := s.zipNames ++ ["pages/pages.jsonl"]
        resources := s.resources ++
          [{ name := "pages.jsonl"
             path := "pages/pages.jsonl"
             hash := "sha256:" ++ hexsha (strBytes pagesJSONL)
             bytes := none }] }

/-- `writeWARCsToZip` (src/index.js lines 540-562). The per-WARC loop
appends inside a `try`; on a finalized archive the first iteration
throws, yielding that iteration's catch message (line 559) — with no
WARCs the loop body never runs and the step succeeds either way. -/
def writeWARCsToZip (shaFile : String → String) (fileSize : String → Nat)
    (s : RunState) : Except String RunState :=
  match readyStateCheck s with
  | Except.error e => Except.error e
  | Except.ok _ =>
      if s.zipFinalized = true ∧ s.WARCs ≠ [] then
        Except.error
          ("An error occurred while writing \"" ++ s.WARCs.headD "" ++ "\" to ZIP.")
      else Except.ok { s with
      zipNames := s.zipNames ++ s.WARCs.map (fun w => "archive/" ++ basenameOf w)
      resources := s.resources ++ s.WARCs.map (fun w =>
        { name := basenameOf w
          path := "archive/" ++ basenameOf w
          hash := shaFile w
          bytes := some (fileSize w) }) }

/-- The `datapackage` object of src/index.js lines 576-596, built from
the instance fields. -/
def buildDatapackage (createdNow software : String) (s : RunState) :
    Datapackage :=
  { created := createdNow
    wacz_version := "1.1.1"
    software := software
    resources := s.resources
    title := match s.title with
      | some t => if strTruthy t then t else "WACZ"
      | none => "WACZ"
    description := match s.description with
      | some d => if strTruthy d then d else ""
      | none => ""
    mainPageUrl := match s.url with
      | some u => if strTruthy u then some u else none
      | none => none
    mainPageDate := if strTruthy s.ts then some s.ts else none
    extras := s.datapackageExtras }

/-- `writeDatapackageToZip` (src/index.js lines 568-613). `createdNow`
is the `new Date().toISOString()` captured at emission. -/
def writeDatapackageToZip (renderDatapackage : Datapackage → String)
    (hexsha : List Nat → String) (createdNow software : String)
    (s : RunState) : Except String RunState :=
  match readyStateCheck s with
  | Except.error e => Except.error e
  | Except.ok _ =>
      if s.zipFinalized = true then
        Except.error "An error occurred while generating \"datapackage.json\"."
      else
      let s := { s with datapackageDate := some createdNow }
      let datapackage := buildDatapackage createdNow software s
      let serialized := renderDatapackage datapackage
      Except.ok { s with
        zipNames := s.zipNames ++ ["datapackage.json"]
        resources := s.resources ++
          [{ name := "datapackage.json"
             path := "datapackage.json"
             hash := "sha256:" ++ hexsha (strBytes serialized)
             bytes := some (strBytes serialized).length }] }

/-- `requestSignature` (src/index.js lines 657-707). `fetchOk` models
the HTTP POST returning status 200; `json` is the parsed response
body. -/
def requestSignature (pem : String → Bool) (fetchOk : Bool)
    (json : SignedData) (s : RunState) : Except String SignedData :=
  match readyStateCheck s with
  | Except.error e => Except.error e
  | Except.ok _ =>
      match s.resources.find? (fun r => r.name == "datapackage.json") with
      | none => Except.error "TypeError: resources.find(...) is undefined"
      | some r =>
          if s.datapackageDate = none ∨ ¬strTruthy r.hash then
            Except.error "No datapackage to sign."
          else if fetchOk = false then
            Except.error "WACZ Signature request failed."
          else if assertValidWACZSignatureFormat pem json then
            Except.ok json
          else
            Except.error "Server returned an invalid WACZ signature."

/-- `writeDatapackageDigestToZip` (src/index.js lines 619-650). Both a
failed append on a finalized archive and a signing failure surface as
the same outer catch message, so the finalized-archive check may sit
first without changing the observable result. -/
def writeDatapackageDigestToZip (pem : String → Bool) (fetchOk : Bool)
    (json : SignedData) (s : RunState) : Except String RunState :=
  match readyStateCheck s with
  | Except.error e => Except.error e
  | Except.ok _ =>
      if s.zipFinalized = true then
        Except.error "An error occurred while generating \"datapackage-digest.json\"."
      else
      match s.resources.find? (fun r => r.name == "datapackage.json") with
      | none =>
          Except.error "An error occurred while generating \"datapackage-digest.json\"."
      | some _ =>
          if s.signingUrl.isSome then
            match requestSignature pem fetchOk json s with
            | Except.error _ =>
                Except.error "An error occurred while generating \"datapackage-digest.json\"."
            | Except.ok _ =>
                Except.ok { s with zipNames := s.zipNames ++ ["datapackage-digest.json"] }
          else
            Except.ok { s with zipNames := s.zipNames ++ ["datapackage-digest.json"] }

/-- `finalize` (src/index.js lines 713-716). A second `finalize` on an
already-finalized archive is unreachable through `process()`: on a
finalized archive `writeIndexesToZip` fails first. -/
def finalizeZip (s : RunState) : Except String RunState :=
  match readyStateCheck s with
  | Except.error e => Except.error e
  | Except.ok _ => Except.ok { s with zipFinalized := true }

/-- Everything `process` needs from the outside world. -/
structure ProcessEnv where
  gz : String → List Nat
  hexsha : List Nat → String
  shaFile : String → String
  fileSize : String → Nat
  renderDatapackage : Datapackage → String
  pem : String → Bool
  fetchOk : Bool
  signResponse : SignedData
  results : List WorkerResult
  createdNow : String
  software : String

/-- `process` (src/index.js lines 315-345): `readyStateCheck`, then the
eight pipeline steps in order. -/
def process (env : ProcessEnv) (s : RunState) : Except String RunState :=
  match readyStateCheck s with
  | Except.error e => Except.error e
  | Except.ok _ => do
      let s ← indexWARCs env.results s
      let s ← harvestArraysFromTrees s
      let s ← writeIndexesToZip env.gz env.hexsha s
      let s ← writePagesToZip env.hexsha s
      let s ← writeWARCsToZip env.shaFile env.fileSize s
      let s ← writeDatapackageToZip env.renderDatapackage env.hexsha
        env.createdNow env.software s
      let s ← writeDatapackageDigestToZip env.pem env.fetchOk
        env.signResponse s
      let s ← finalizeZip s
      Except.ok s

/-- `addPage` (src/index.js lines 727-756). Returns the state as mutated
before any `throw` (JS exceptions do not roll back assignments) together
with the outcome. `uuid` models `uuidv4().replaceAll('-', '')`. -/
def addPage (urlParse dateParse : String → Option String) (uuid : String)
    (s : RunState) (url : String) (title : Option String)
    (ts : Option String) : RunState × Except String Unit :=
  match readyStateCheck s with
  | Except.error e => (s, Except.error e)
  | Except.ok _ =>
      let s := { s with detectPages := false }
      match urlParse url with
      | none => (s, Except.error "\"url\" must be a valid url.")
      | some _ =>
          let page : WACZPage := { id := uuid, url := url }
          let page := match title with
            | some t =>
                if strTruthy t then { page with title := some (strTrim t) }
                else page
            | none => page
          match ts with
          | some t =>
              if strTruthy t then
                match dateParse t with
                | none =>
                    (s, Except.error "If provided, \"ts\" must be parsable by JavaScript\x27s Date class.")
                | some iso =>
                    ({ s with pagesTree :=
                        setIfNotPresent page.url { page with ts := some iso } s.pagesTree },
                      Except.ok ())
              else
                ({ s with pagesTree := setIfNotPresent page.url page s.pagesTree },
                  Except.ok ())
          | none =>
              ({ s with pagesTree := setIfNotPresent page.url page s.pagesTree },
                Except.ok ())

/-! ## Constructor and option filtering (src/index.js 172-309) -/

/-- A JS value as it may arrive in `options.detectPages` (the source
compares it with `=== false`). -/
inductive JSVal
  | vBool (b : Bool)
  | vStr (s : String)
  | vNum (n : Nat)
deriving DecidableEq, Repr

/-- The `WACZOptions` bag. `none` models an absent key. -/
structure WACZOptions where
  file : Option String := none
  output : Option String := none
  detectPages : Option JSVal := none
  url : Option String := none
  ts : Option String := none
  title : Option String := none
  description : Option String := none
  signingUrl : Option String := none
  signingToken : Option String := none
  datapackageExtras : Option String := none
deriving DecidableEq, Repr

/-- The `.warc` / `.warc.gz` filter of src/index.js lines 211-220. -/
def isWarcFile (f : String) : Bool :=
  let filename := strToLower (basenameOf f)
  strEndsWith filename ".warc" || strEndsWith filename ".warc.gz"

/-- `filterBlockingOptions` (src/index.js lines 199-249): `file` must
glob to at least one WARC, `output` must end in `.wacz` (default
`${PWD}/archive.wacz`). The `unlinkSync` side effect is modelled by
`constructorFS` below. -/
def filterBlockingOptions (globSync : String → List String) (pwd : String)
    (opts : WACZOptions) (s : RunState) : Except String RunState :=
  match opts.file with
  | none =>
      Except.error "\"file\" must be a valid path leading to at least 1 .warc or .warc.gz file."
  | some f =>
      if ¬strTruthy f then
        Except.error "\"file\" must be a valid path leading to at least 1 .warc or .warc.gz file."
      else
        let file := strTrim f
        let warcs := (globSync file).filter isWarcFile
        if warcs.length < 1 then
          Except.error "\"file\" must be a valid path leading to at least 1 .warc or .warc.gz file."
        else
          let s := { s with file := some file, WARCs := warcs }
          let output := match opts.output with
            | some o => if strTruthy o then strTrim o else pwd ++ "/archive.wacz"
            | none => pwd ++ "/archive.wacz"
          if ¬strEndsWith (strToLower output) ".wacz" then
            Except.error "\"output\" must be a valid \"*.wacz\" path on which the program can write."
          else
            Except.ok { s with output := output }

/-- src/index.js lines 258-260: only the exact value `false` turns
`detectPages` off; any other value is silently ignored (no warn). -/
def fnbDetectPages (opts : WACZOptions) (s : RunState) : RunState :=
  if opts.detectPages = some (JSVal.vBool false) then
    { s with detectPages := false }
  else s

/-- src/index.js lines 262-269. -/
def fnbUrl (urlParse : String → Option String) (opts : WACZOptions)
    (sw : RunState × List String) : RunState × List String :=
  match opts.url with
  | some u =>
      if strTruthy u then
        match urlParse u with
        | some href => ({ sw.1 with url := some href }, sw.2)
        | none => (sw.1, sw.2 ++ ["\"url\" provided is invalid. Skipping."])
      else sw
  | none => sw

/-- src/index.js lines 271-278. -/
def fnbTs (dateParse : String → Option String) (opts : WACZOptions)
    (sw : RunState × List String) : RunState × List String :=
  match opts.ts with
  | some t =>
      if strTruthy t then
        match dateParse t with
        | some iso => ({ sw.1 with ts := iso }, sw.2)
        | none => (sw.1, sw.2 ++ ["\"ts\" provided is invalid. Skipping."])
      else sw
  | none => sw

/-- src/index.js lines 280-282. -/
def fnbTitle (opts : WACZOptions) (sw : RunState × List String) :
    RunState × List String :=
  match opts.title with
  | some t =>
      if strTruthy t then ({ sw.1 with title := some (strTrim t) }, sw.2)
      else sw
  | none => sw

/-- src/index.js lines 284-286. -/
def fnbDescription (opts : WACZOptions) (sw : RunState × List String) :
    RunState × List String :=
  match opts.description with
  | some d =>
      if strTruthy d then ({ sw.1 with description := some (strTrim d) }, sw.2)
      else sw
  | none => sw

/-- src/index.js lines 288-295. -/
def fnbSigningUrl (urlParse : String → Option String) (opts : WACZOptions)
    (sw : RunState × List String) : RunState × List String :=
  match opts.signingUrl with
  | some u =>
      if strTruthy u then
        match urlParse u with
        | some href => ({ sw.1 with signingUrl := some href }, sw.2)
        | none =>
            (sw.1, sw.2 ++ ["\"signingUrl\" provided is not a valid url. Skipping."])
      else sw
  | none => sw

/-- src/index.js lines 297-299. -/
def fnbSigningToken (opts : WACZOptions) (sw : RunState × List String) :
    RunState × List String :=
  match opts.signingToken with
  | some tok =>
      if strTruthy tok && sw.1.signingUrl.isSome then
        ({ sw.1 with signingToken := some tok }, sw.2)
      else sw
  | none => sw

/-- src/index.js lines 301-308: the whole block is guarded by
`if (options?.datapackageExtras)`, so a present-but-falsy value is
skipped silently — neither the field assignment nor the warn runs. -/
def fnbExtras (jsonOK : String → Bool) (opts : WACZOptions)
    (sw : RunState × List String) : RunState × List String :=
  match opts.datapackageExtras with
  | some x =>
      if strTruthy x then
        if jsonOK x then ({ sw.1 with datapackageExtras := some x }, sw.2)
        else
          (sw.1, sw.2 ++ ["\"datapackageExtras\" provided is not JSON-serializable object. Skipping."])
      else sw
  | none => sw

/-- `filterNonBlockingOptions` (src/index.js lines 255-309): the option
checks in source order. Returns the updated state and the `log.warn`
messages emitted, in order. -/
def filterNonBlockingOptions (urlParse dateParse : String → Option String)
    (jsonOK : String → Bool) (opts : WACZOptions) (s : RunState) :
    RunState × List String :=
  fnbExtras jsonOK opts
    (fnbSigningToken opts
      (fnbSigningUrl urlParse opts
        (fnbDescription opts
          (fnbTitle opts
            (fnbTs dateParse opts
              (fnbUrl urlParse opts (fnbDetectPages opts s, [])))))))

/-- The `WACZ` constructor (src/index.js lines 172-192): blocking
options, non-blocking options, `ready = true`, `initOutputStreams`.
`nowIso` is the `new Date().toISOString()` captured by the `ts` field
initialiser (line 84). Returns the constructed state and the warn
messages. -/
def waczConstructor (globSync : String → List String)
    (urlParse dateParse : String → Option String) (jsonOK : String → Bool)
    (pwd nowIso : String) (opts : WACZOptions) :
    Except String (RunState × List String) :=
  let s0 : RunState := { ts := nowIso }
  match filterBlockingOptions globSync pwd opts s0 with
  | Except.error e => Except.error e
  | Except.ok s =>
      let sw := filterNonBlockingOptions urlParse dateParse jsonOK opts s
      let s := { sw.1 with ready := true }
      let s := { s with outputStreamOpen := some s.output }
      Except.ok (s, sw.2)

/-! ## File-system side effects of construction -/

/-- A file system: path to contents. -/
abbrev FS := String → Option (List Nat)

/-- `unlinkSync(p)` with its error swallowed (src/index.js 242-244). -/
def unlinkSyncFS (p : String) (fs : FS) : FS :=
  fun q => if q = p then none else fs q

/-- `createWriteStream(p)`: a fresh, empty file is opened at `p`
(src/index.js line 364). -/
def createWriteStreamFS (p : String) (fs : FS) : FS :=
  fun q => if q = p then some [] else fs q

/-- The file-system effect of constructing a `WACZ` instance: the
`unlinkSync(this.output)` of `filterBlockingOptions` followed by the
`createWriteStream(this.output)` of `initOutputStreams`. No other
write/delete call is reachable from the constructor. -/
def constructorFS (output : String) (fs : FS) : FS :=
  createWriteStreamFS output (unlinkSyncFS output fs)

/-- A concrete hex-digest stand-in for witnesses. -/
def hexh : List Nat → String := fun _ => "h"

/-- Extract the state from a successful step (used by witnesses). -/
def runOk (e : Except String RunState) : RunState :=
  match e with
  | Except.ok s => s
  | Except.error _ => default

/-- Concrete worker results for the C5 witness: two files sharing a CDXJ
line and a page URL. -/
def pgA : WACZPage := { id := "1", url := "https://a/" }

def pgB : WACZPage := { id := "2", url := "https://a/", title := some "B" }

def wr1 : WorkerResult := { cdx := ["b\n"], pages := [pgA] }

def wr2 : WorkerResult := { cdx := ["a\n", "b\n"], pages := [pgB] }

def sW : RunState := { ready := true }

/-! ### Closed forms for the option filters -/

/-- Value of `this.url` after `fnbUrl`, given its prior value. -/
def optUrlVal (urlParse : String → Option String) (opts : WACZOptions)
    (u0 : Option String) : Option String :=
  match opts.url with
  | some x =>
      if strTruthy x then
        match urlParse x with
        | some href => some href
        | none => u0
      else u0
  | none => u0

/-- Warn messages emitted by `fnbUrl`. -/
def urlWarn (urlParse : String → Option String) (opts : WACZOptions) :
    List String :=
  match opts.url with
  | some x =>
      if strTruthy x then
        match urlParse x with
        | some _ => []
        | none => ["\"url\" provided is invalid. Skipping."]
      else []
  | none => []

/-- Value of `this.ts` after `fnbTs`, given its prior value. -/
def optTsVal (dateParse : String → Option String) (opts : WACZOptions)
    (t0 : String) : String :=
  match opts.ts with
  | some x =>
      if strTruthy x then
        match dateParse x with
        | some iso => iso
        | none => t0
      else t0
  | none => t0

/-- Warn messages emitted by `fnbTs`. -/
def tsWarn (dateParse : String → Option String) (opts : WACZOptions) :
    List String :=
  match opts.ts with
  | some x =>
      if strTruthy x then
        match dateParse x with
        | some _ => []
        | none => ["\"ts\" provided is invalid. Skipping."]
      else []
  | none => []

/-- Value of `this.title` after `fnbTitle`. -/
def optTitleVal (opts : WACZOptions) (t0 : Option String) : Option String :=
  match opts.title with
  | some t => if strTruthy t then some (strTrim t) else t0
  | none => t0

/-- Value of `this.description` after `fnbDescription`. -/
def optDescVal (opts : WACZOptions) (d0 : Option String) : Option String :=
  match opts.description with
  | some d => if strTruthy d then some (strTrim d) else d0
  | none => d0

/-- Value of `this.signingUrl` after `fnbSigningUrl`. -/
def optSignUrlVal (urlParse : String → Option String) (opts : WACZOptions)
    (u0 : Option String) : Option String :=
  match opts.signingUrl with
  | some x =>
      if strTruthy x then
        match urlParse x with
        | some href => some href
        | none => u0
      else u0
  | none => u0

/-- Warn messages emitted by `fnbSigningUrl`. -/
def signWarn (urlParse : String → Option String) (opts : WACZOptions) :
    List String :=
  match opts.signingUrl with
  | some x =>
      if strTruthy x then
        match urlParse x with
        | some _ => []
        | none => ["\"signingUrl\" provided is not a valid url. Skipping."]
      else []
  | none => []

/-- Value of `this.signingToken` after `fnbSigningToken`, given the
current `signingUrl`. -/
def optTokenVal (opts : WACZOptions) (su : Option String)
    (t0 : Option String) : Option String :=
  match opts.signingToken with
  | some tok => if strTruthy tok && su.isSome then some tok else t0
  | none => t0

/-- Value of `this.datapackageExtras` after `fnbExtras`. -/
def optExtrasVal (jsonOK : String → Bool) (opts : WACZOptions)
    (x0 : Option String) : Option String :=
  match opts.datapackageExtras with
  | some x => if strTruthy x then (if jsonOK x then some x else x0) else x0
  | none => x0

/-- Warn messages emitted by `fnbExtras` (only a truthy value reaches
the `JSON.stringify` probe). -/
def extrasWarn (jsonOK : String → Bool) (opts : WACZOptions) : List String :=
  match opts.datapackageExtras with
  | some x =>
      if strTruthy x then
        if jsonOK x then []
        else ["\"datapackageExtras\" provided is not JSON-serializable object. Skipping."]
      else []
  | none => []

/-- `this.output` as computed by `filterBlockingOptions` (src/index.js
lines 232-234). -/
def outputVal (pwd : String) (opts : WACZOptions) : String :=
  match opts.output with
  | some o => if strTruthy o then strTrim o else pwd ++ "/archive.wacz"
  | none => pwd ++ "/archive.wacz"

/-! ## C6: datapackage fields -/

/-- Concrete glob stand-in for witnesses: one `.warc` file. -/
def gW : String → List String := fun _ => ["a.warc"]

/-- Concrete `new URL(u).href` stand-in: rejects the empty string. -/
def uW : String → Option String := fun x => if x == "" then none else some x

/-- Concrete `new Date(x).toISOString()` stand-in: accepts one value. -/
def dW : String → Option String := fun x =>
  if x == "2023-02-22T12:00:00Z" then some "2023-02-22T12:00:00.000Z" else none

/-- Concrete JSON-serializability stand-in. -/
def jW : String → Bool := fun _ => true

/-- Concrete construction-time timestamp. -/
def NOW_ISO : String := "2026-01-01T00:00:00.000Z"

/-- Extract the pair from a successful construction (for witnesses). -/
def ctorOk (e : Except String (RunState × List String)) :
    RunState × List String :=
  match e with
  | Except.ok x => x
  | Except.error _ => (default, [])

/-- Options for the C6 counterexample: no `ts`, padded `title`. -/
def optsC6 : WACZOptions :=
  { file := some "*.warc", output := some "o.wacz", title := some " T " }

/-! ## C8: option validation -/

/-- Options for the C8 counterexample: invalid `detectPages` (a string)
and an invalid (empty, hence falsy) `url`. -/
def optsC8 : WACZOptions :=
  { file := some "*.warc", output := some "o.wacz",
    detectPages := some (JSVal.vStr "foo"), url := some "" }

/-- Empty glob stand-in (matches no file). -/
def gEmpty : String → List String := fun _ => []

/-! ## C7: signature-format assertion -/

/-- The C7 counterexample response: empty `software`, `created` merely
*containing* an ISO-8601 substring, anonymous mode. -/
def sdCex : SignedData :=
  { hash := some "sha256:aaaaaaaaaaaaaaaaaaaaaaaaaaaaaaaaaaaaaaaaaaaaaaaaaaaaaaaaaaaaaaaa"
    created := some "xx2023-01-01T00:00:00Zyy"
    software := some ""
    signature := some "AAAA"
    publicKey := some "AAAA" }

/-- A state on which `requestSignature` reaches the format check. -/
def sRS : RunState :=
  { ready := true
    datapackageDate := some "2026-01-01T00:00:00.000Z"
    resources := [{ name := "datapackage.json", path := "datapackage.json",
                    hash := "sha256:aa", bytes := some 2 }] }

/-- A fully valid anonymous-mode response for the C7 witness. -/
def sdOK : SignedData :=
  { hash := some "sha256:aaaaaaaaaaaaaaaaaaaaaaaaaaaaaaaaaaaaaaaaaaaaaaaaaaaaaaaaaaaaaaaa"
    created := some "2023-01-01T00:00:00Z"
    software := some "authsign 0.5.0"
    signature := some "AAAA"
    publicKey := some "AAAA" }

/-- An all-accepting `X509Certificate` stand-in. -/
def pemTrue : String → Bool := fun _ => true

/-- Concrete process environment for C2/C9 witnesses. -/
def env0 : ProcessEnv :=
  { gz := strBytes
    hexsha := hexh
    shaFile := fun _ => "sha256:f"
    fileSize := fun _ => 0
    renderDatapackage := fun _ => "dp"
    pem := fun _ => false
    fetchOk := true
    signResponse := {}
    results := []
    createdNow := "2026-01-01T00:00:00.000Z"
    software := "js-wacz 0.0.0" }

/-- A freshly constructed, unsigned run state. -/
def s0C2 : RunState := { ready := true, ts := "t", output := "o.wacz" }

/-- The empty file system, for the C10 witness. -/
def fs0 : FS := fun _ => none

/-! ### Order facts about `charsLt` -/

theorem char_toNat_inj {a b : Char} (h : a.toNat = b.toNat) : a = b :=
  Char.eq_of_val_eq (UInt32.ext h)

theorem blt_false_iff {x y : Nat} : Nat.blt x y = false ↔ ¬x < y := by
  rw [← Bool.not_eq_true, Nat.blt_eq]

theorem charsLt_irrefl (l : List Char) : charsLt l l = false := by
  induction l with
  | nil => rfl
  | cons a as ih =>
      simp [charsLt, ih, blt_false_iff]

theorem charsLt_trans {a b c : List Char} (hab : charsLt a b = true)
    (hbc : charsLt b c = true) : charsLt a c = true := by
  induction a generalizing b c with
  | nil =>
      cases c with
      | nil =>
          cases b with
          | nil => exact absurd hab (by simp [charsLt])
          | cons y ys => exact absurd hbc (by simp [charsLt])
      | cons z zs => simp [charsLt]
  | cons x xs ih =>
      cases b with
      | nil => exact absurd hab (by simp [charsLt])
      | cons y ys =>
          cases c with
          | nil => exact absurd hbc (by simp [charsLt])
          | cons z zs =>
              simp only [charsLt, Bool.or_eq_true, Bool.and_eq_true, Nat.blt_eq,
                beq_iff_eq] at hab hbc ⊢
              rcases hab with h1 | ⟨rfl, h1⟩
              · rcases hbc with h2 | ⟨rfl, h2⟩
                · exact Or.inl (Nat.lt_trans h1 h2)
                · exact Or.inl h1
              · rcases hbc with h2 | ⟨rfl, h2⟩
                · exact Or.inl h2
                · exact Or.inr ⟨rfl, ih h1 h2⟩

theorem charsLt_connex {a b : List Char} (hab : charsLt a b = false)
    (hba : charsLt b a = false) : a = b := by
  induction a generalizing b with
  | nil =>
      cases b with
      | nil => rfl
      | cons y ys => exact absurd hab (by simp [charsLt])
  | cons x xs ih =>
      cases b with
      | nil => exact absurd hba (by simp [charsLt])
      | cons y ys =>
          simp only [charsLt, Bool.or_eq_false_iff, Bool.and_eq_false_iff,
            Nat.blt_eq, Bool.not_eq_true, beq_eq_false_iff_ne, ne_eq] at hab hba
          obtain ⟨h1, h2⟩ := hab
          obtain ⟨h3, h4⟩ := hba
          have hxy : x = y := by
            rcases Nat.lt_trichotomy x.toNat y.toNat with h | h | h
            · exact absurd h (blt_false_iff.mp h1)
            · exact char_toNat_inj h
            · exact absurd h (blt_false_iff.mp h3)
          subst hxy
          rcases h2 with h2 | h2
          · exact absurd rfl h2
          · rcases h4 with h4 | h4
            · exact absurd rfl h4
            · rw [ih h2 h4]

theorem charsLt_asymm {a b : List Char} (hab : charsLt a b = true) :
    charsLt b a = false := by
  by_contra h
  have hba : charsLt b a = true := by
    cases hh : charsLt b a with
    | false => exact absurd hh h
    | true => rfl
  have := charsLt_trans hab hba
  rw [charsLt_irrefl] at this
  exact Bool.false_ne_true this

theorem strLt_irrefl (s : String) : strLt s s = false := charsLt_irrefl s.data

theorem strLt_trans {a b c : String} (hab : strLt a b = true)
    (hbc : strLt b c = true) : strLt a c = true := charsLt_trans hab hbc

theorem strLt_connex {a b : String} (hab : strLt a b = false)
    (hba : strLt b a = false) : a = b := by
  have h := charsLt_connex hab hba
  cases a
  cases b
  exact congrArg String.mk h

theorem strLt_asymm {a b : String} (hab : strLt a b = true) :
    strLt b a = false := charsLt_asymm hab

theorem bool_not_true {b : Bool} (h : ¬b = true) : b = false := by
  cases b
  · rfl
  · exact absurd rfl h

theorem mem_keys_setIfNotPresent {α : Type} (k a : String) (v : α) (t : BTreeM α) :
    a ∈ keysArray (setIfNotPresent k v t) ↔ a = k ∨ a ∈ keysArray t := by
  induction t with
  | nil => simp [setIfNotPresent, keysArray]
  | cons e t ih =>
      obtain ⟨k', v'⟩ := e
      simp only [setIfNotPresent]
      by_cases h1 : strLt k k' = true
      · rw [if_pos h1]
        simp [keysArray]
      · rw [if_neg h1]
        by_cases h2 : k = k'
        · rw [if_pos h2]
          subst h2
          simp only [keysArray, List.map_cons, List.mem_cons]
          tauto
        · rw [if_neg h2]
          simp only [keysArray, List.map_cons, List.mem_cons] at ih ⊢
          rw [ih]
          tauto

theorem sorted_setIfNotPresent {α : Type} (k : String) (v : α) {t : BTreeM α}
    (h : TreeSorted t) : TreeSorted (setIfNotPresent k v t) := by
  induction t with
  | nil => simp [setIfNotPresent, TreeSorted]
  | cons e t ih =>
      obtain ⟨k', v'⟩ := e
      rw [TreeSorted, List.pairwise_cons] at h
      obtain ⟨hall, hrest⟩ := h
      simp only [setIfNotPresent]
      by_cases h1 : strLt k k' = true
      · rw [if_pos h1]
        rw [TreeSorted, List.pairwise_cons]
        constructor
        · intro e he
          rcases List.mem_cons.mp he with rfl | he'
          · exact h1
          · exact strLt_trans h1 (hall e he')
        · rw [List.pairwise_cons]
          exact ⟨hall, hrest⟩
      · rw [if_neg h1]
        by_cases h2 : k = k'
        · rw [if_pos h2]
          rw [TreeSorted, List.pairwise_cons]
          exact ⟨hall, hrest⟩
        · rw [if_neg h2]
          rw [TreeSorted, List.pairwise_cons]
          constructor
          · intro e he
            have hmem := (mem_keys_setIfNotPresent k e.1 v t).mp
              (List.mem_map.mpr ⟨e, he, rfl⟩)
            rcases hmem with heq | hmem'
            · rw [heq]
              rcases hx : strLt k' k with _ | _
              · exact absurd (strLt_connex (bool_not_true h1) hx) h2
              · rfl
            · obtain ⟨e', he', he'eq⟩ := List.mem_map.mp hmem'
              have := hall e' he'
              rw [he'eq] at this
              exact this
          · exact ih hrest

theorem treeLookup_none_iff {α : Type} (k : String) (t : BTreeM α) :
    treeLookup k t = none ↔ k ∉ keysArray t := by
  induction t with
  | nil => simp [treeLookup, keysArray]
  | cons e t ih =>
      obtain ⟨k', v'⟩ := e
      by_cases h : k' = k
      · subst h
        simp [treeLookup, keysArray, List.find?]
      · simp only [treeLookup, List.find?, show (k' == k) = false by simpa using h]
        simp only [treeLookup] at ih
        simp only [keysArray, List.map_cons, List.mem_cons] at ih ⊢
        rw [ih]
        constructor
        · intro hh h'
          rcases h' with h' | h'
          · exact h (h'.symm)
          · exact hh h'
        · intro hh h'
          exact hh (Or.inr h')

theorem treeLookup_setIfNotPresent_other {α : Type} {k a : String} (v : α)
    (t : BTreeM α) (h : a ≠ k) :
    treeLookup a (setIfNotPresent k v t) = treeLookup a t := by
  induction t with
  | nil =>
      simp [setIfNotPresent, treeLookup, List.find?, show (k == a) = false by
        simpa using fun hh => h hh.symm]
  | cons e t ih =>
      obtain ⟨k', v'⟩ := e
      simp only [setIfNotPresent]
      by_cases h1 : strLt k k' = true
      · rw [if_pos h1]
        simp [treeLookup, List.find?,
          show (k == a) = false by simpa using fun hh => h hh.symm]
      · rw [if_neg h1]
        by_cases h2 : k = k'
        · rw [if_pos h2]
        · rw [if_neg h2]
          by_cases h3 : k' = a
          · subst h3
            simp [treeLookup, List.find?]
          · simp only [treeLookup, List.find?,
              show (k' == a) = false by simpa using h3]
            exact ih

theorem treeLookup_setIfNotPresent_absent {α : Type} {k : String} (v : α)
    {t : BTreeM α} (h : treeLookup k t = none) :
    treeLookup k (setIfNotPresent k v t) = some v := by
  induction t with
  | nil => simp [setIfNotPresent, treeLookup, List.find?]
  | cons e t ih =>
      obtain ⟨k', v'⟩ := e
      have hk' : k' ≠ k := by
        intro hh
        subst hh
        simp [treeLookup, List.find?] at h
      simp only [setIfNotPresent]
      by_cases h1 : strLt k k' = true
      · rw [if_pos h1]
        simp [treeLookup, List.find?]
      · rw [if_neg h1]
        by_cases h2 : k = k'
        · exact absurd h2.symm hk'
        · rw [if_neg h2]
          simp only [treeLookup, List.find?,
            show (k' == k) = false by simpa using hk'] at h ⊢
          exact ih h

theorem treeLookup_setIfNotPresent_present {α : Type} {k : String} (v : α)
    {w : α} {t : BTreeM α} (hs : TreeSorted t) (h : treeLookup k t = some w) :
    treeLookup k (setIfNotPresent k v t) = some w := by
  induction t with
  | nil => simp [treeLookup] at h
  | cons e t ih =>
      obtain ⟨k', v'⟩ := e
      rw [TreeSorted, List.pairwise_cons] at hs
      obtain ⟨hall, hrest⟩ := hs
      by_cases h2 : k = k'
      · subst h2
        simp only [treeLookup, List.find?, beq_self_eq_true] at h
        simp only [setIfNotPresent]
        rw [if_neg (by simp [strLt_irrefl]), if_pos (by trivial)]
        simpa [treeLookup, List.find?] using h
      · have hfind : treeLookup k t = some w := by
          simpa [treeLookup, List.find?,
            show (k' == k) = false by simpa using fun hh => h2 hh.symm] using h
        by_cases h1 : strLt k k' = true
        · exfalso
          have hkmem : k ∈ keysArray t := by
            by_contra hk
            rw [← treeLookup_none_iff] at hk
            rw [hk] at hfind
            exact Option.noConfusion hfind
          obtain ⟨e', he', he'eq⟩ := List.mem_map.mp hkmem
          have hlt := hall e' he'
          rw [he'eq] at hlt
          have := strLt_trans h1 hlt
          rw [strLt_irrefl] at this
          exact Bool.false_ne_true this
        · simp only [setIfNotPresent]
          rw [if_neg h1, if_neg h2]
          simp only [treeLookup, List.find?,
            show (k' == k) = false by simpa using fun hh => h2 hh.symm]
          exact ih hrest hfind

/-! ### Folding insertions -/

theorem sorted_foldl_ins {α β : Type} (key : β → String) (val : β → α)
    (xs : List β) {t : BTreeM α} (h : TreeSorted t) :
    TreeSorted (xs.foldl (fun t x => setIfNotPresent (key x) (val x) t) t) := by
  induction xs generalizing t with
  | nil => exact h
  | cons x xs ih => exact ih (sorted_setIfNotPresent _ _ h)

theorem mem_keys_foldl_ins {α β : Type} (key : β → String) (val : β → α)
    (xs : List β) (t : BTreeM α) (a : String) :
    a ∈ keysArray (xs.foldl (fun t x => setIfNotPresent (key x) (val x) t) t) ↔
      a ∈ keysArray t ∨ ∃ x ∈ xs, key x = a := by
  induction xs generalizing t with
  | nil => simp
  | cons x xs ih =>
      simp only [List.foldl_cons, ih, mem_keys_setIfNotPresent, List.mem_cons]
      constructor
      · rintro (⟨rfl | hm⟩ | ⟨y, hy, rfl⟩)
        · exact Or.inr ⟨x, Or.inl rfl, rfl⟩
        · exact Or.inl hm
        · exact Or.inr ⟨y, Or.inr hy, rfl⟩
      · rintro (hm | ⟨y, hy | hy, rfl⟩)
        · exact Or.inl (Or.inr hm)
        · subst hy
          exact Or.inl (Or.inl rfl)
        · exact Or.inr ⟨y, hy, rfl⟩

theorem treeLookup_foldl_ins {α : Type} (key : α → String) (xs : List α)
    {t : BTreeM α} (hs : TreeSorted t) (k : String) :
    treeLookup k (xs.foldl (fun t x => setIfNotPresent (key x) x t) t) =
      (treeLookup k t).elim (xs.find? (fun x => key x == k)) some := by
  induction xs generalizing t with
  | nil =>
      cases h : treeLookup k t <;> simp [h, Option.elim]
  | cons x xs ih =>
      simp only [List.foldl_cons]
      rw [ih (sorted_setIfNotPresent _ _ hs)]
      cases h : treeLookup k t with
      | some w =>
          by_cases hk : key x = k
          · subst hk
            rw [treeLookup_setIfNotPresent_present x hs h]
            simp [Option.elim]
          · rw [treeLookup_setIfNotPresent_other x t (fun hh => hk hh.symm)]
            rw [h]
            simp [Option.elim]
      | none =>
          by_cases hk : key x = k
          · subst hk
            rw [treeLookup_setIfNotPresent_absent x h]
            simp [Option.elim, List.find?]
          · rw [treeLookup_setIfNotPresent_other x t (fun hh => hk hh.symm)]
            rw [h]
            simp only [Option.elim, List.find?, show (key x == k) = false by
              simpa using hk]

theorem pairwise_keys_of_sorted {α : Type} {t : BTreeM α} (h : TreeSorted t) :
    List.Pairwise (fun a b => strLt a b = true) (keysArray t) := by
  rw [keysArray, List.pairwise_map]
  exact h

theorem nodup_of_pairwise_strLt {l : List String}
    (h : List.Pairwise (fun a b => strLt a b = true) l) : l.Nodup := by
  refine h.imp ?_
  intro a b hab
  intro he
  subst he
  rw [strLt_irrefl] at hab
  exact Bool.false_ne_true hab

theorem sorted_strings_ext {l l' : List String}
    (hmem : ∀ a, a ∈ l ↔ a ∈ l')
    (hl : List.Pairwise (fun a b => strLt a b = true) l)
    (hl' : List.Pairwise (fun a b => strLt a b = true) l') : l = l' := by
  haveI : IsAntisymm String (fun a b => strLt a b = true) :=
    ⟨fun a b h h' => (Bool.false_ne_true ((strLt_asymm h) ▸ h')).elim⟩
  have hperm := (List.perm_ext_iff_of_nodup (nodup_of_pairwise_strLt hl)
    (nodup_of_pairwise_strLt hl')).mpr hmem
  exact List.eq_of_perm_of_sorted hperm hl hl'

/-! ### Characterising the shard loop -/

theorem drop_append_plus {α : Type} (x l2 : List α) (s : Nat) :
    (x ++ l2).drop (x.length + s) = l2.drop s := by
  rw [← List.drop_drop s x.length (x ++ l2), List.drop_left]

theorem shardFold_spec (gz : String → List Nat) (hexsha : List Nat → String)
    (cdxArray : List String) (bs : List (Nat × Nat)) (acc : ShardAcc) :
    bs.foldl (shardStep gz hexsha cdxArray) acc =
      { cdx := acc.cdx ++ (bs.map (fun b => gz (shardSlice cdxArray b))).flatten
        idxOffset := acc.idxOffset
          + (bs.map (fun b => (gz (shardSlice cdxArray b)).length)).sum
        idxEntries := acc.idxEntries
          ++ entriesFrom gz hexsha cdxArray acc.idxOffset bs } := by
  induction bs generalizing acc with
  | nil =>
      obtain ⟨c, o, e⟩ := acc
      simp [entriesFrom]
  | cons b bs ih =>
      obtain ⟨c, o, e⟩ := acc
      rw [List.foldl_cons, ih]
      simp [shardStep, entriesFrom, Nat.add_assoc]

theorem entriesFrom_length (gz : String → List Nat)
    (hexsha : List Nat → String) (cdxArray : List String) (off : Nat)
    (bs : List (Nat × Nat)) :
    (entriesFrom gz hexsha cdxArray off bs).length = bs.length := by
  induction bs generalizing off with
  | nil => simp [entriesFrom]
  | cons b bs ih => simp [entriesFrom, ih]

theorem entriesFrom_getD (gz : String → List Nat)
    (hexsha : List Nat → String) (cdxArray : List String) (off : Nat)
    (bs : List (Nat × Nat)) (k : Nat) (h : k < bs.length) :
    (entriesFrom gz hexsha cdxArray off bs).getD k dfltEntry =
      (firstTok (cdxArray.getD (bs.getD k (0, 0)).1 ""),
       { offset := off + ((bs.take k).map
            (fun b => (gz (shardSlice cdxArray b)).length)).sum
         length := (gz (shardSlice cdxArray (bs.getD k (0, 0)))).length
         digest := "sha256:"
           ++ hexsha (gz (shardSlice cdxArray (bs.getD k (0, 0))))
         filename := "index.cdx.gz" }) := by
  induction bs generalizing off k with
  | nil => simp at h
  | cons b bs ih =>
      cases k with
      | zero => simp [entriesFrom]
      | succ k =>
          have hk : k < bs.length := by
            simpa using h
          simp only [entriesFrom, List.getD_cons_succ, List.take_succ_cons,
            List.map_cons, List.sum_cons]
          rw [ih _ _ hk]
          simp [Nat.add_assoc]

theorem flatten_slice {α : Type} (L : List (List α)) (k : Nat)
    (h : k < L.length) :
    (L.flatten.drop (((L.take k).map List.length).sum)).take
        ((L.getD k []).length) = L.getD k [] := by
  induction L generalizing k with
  | nil => simp at h
  | cons x L ih =>
      cases k with
      | zero => simp [List.take_left]
      | succ k =>
          have hk : k < L.length := by
            simpa using h
          simp only [List.flatten_cons, List.take_succ_cons, List.map_cons,
            List.sum_cons, List.getD_cons_succ]
          rw [drop_append_plus]
          exact ih k hk

theorem windowBounds_length_pos {len i : Nat} (h : i < len) :
    0 < (windowBounds len i).length := by
  rw [windowBounds]
  simp [h]

theorem windowBounds_getD_fst (len : Nat) (k : Nat) : ∀ i : Nat,
    k < (windowBounds len i).length →
    ((windowBounds len i).getD k (0, 0)).1 = i + ZIP_NUM_SHARED_INDEX_LIMIT * k := by
  induction k with
  | zero =>
      intro i h
      rw [windowBounds] at h ⊢
      by_cases hi : i < len
      · simp [hi]
      · simp [hi] at h
  | succ k ih =>
      intro i h
      rw [windowBounds] at h ⊢
      by_cases hi : i < len
      · simp only [hi, dif_pos, List.getD_cons_succ, List.length_cons] at h ⊢
        rw [ih _ (by omega)]
        ring
      · simp [hi] at h

theorem windowBounds_getD_snd (len : Nat) (k : Nat) : ∀ i : Nat,
    k < (windowBounds len i).length →
    ((windowBounds len i).getD k (0, 0)).2 =
      (if ((windowBounds len i).getD k (0, 0)).1 + ZIP_NUM_SHARED_INDEX_LIMIT > len
       then len - 1
       else ((windowBounds len i).getD k (0, 0)).1 + ZIP_NUM_SHARED_INDEX_LIMIT) := by
  induction k with
  | zero =>
      intro i h
      rw [windowBounds] at h ⊢
      by_cases hi : i < len
      · simp [hi]
      · simp [hi] at h
  | succ k ih =>
      intro i h
      rw [windowBounds] at h ⊢
      by_cases hi : i < len
      · simp only [hi, dif_pos, List.getD_cons_succ, List.length_cons] at h ⊢
        exact ih _ (by omega)
      · simp [hi] at h

theorem windowBounds_fst_lt (len : Nat) (k : Nat) : ∀ i : Nat,
    k < (windowBounds len i).length →
    ((windowBounds len i).getD k (0, 0)).1 < len := by
  induction k with
  | zero =>
      intro i h
      rw [windowBounds] at h ⊢
      by_cases hi : i < len
      · simp [hi]
      · simp [hi] at h
  | succ k ih =>
      intro i h
      rw [windowBounds] at h ⊢
      by_cases hi : i < len
      · simp only [hi, dif_pos, List.getD_cons_succ, List.length_cons] at h ⊢
        exact ih _ (by omega)
      · simp [hi] at h

/-! ## Concrete window computations -/

theorem windowBounds_len0 : windowBounds 0 0 = [] := by
  rw [windowBounds]
  norm_num

theorem windowBounds_len1 : windowBounds 1 0 = [(0, 0)] := by
  rw [windowBounds, windowBounds]
  norm_num [ZIP_NUM_SHARED_INDEX_LIMIT]

theorem windowBounds_len2 : windowBounds 2 0 = [(0, 1)] := by
  rw [windowBounds, windowBounds]
  norm_num [ZIP_NUM_SHARED_INDEX_LIMIT]

theorem windowBounds_len3001 : windowBounds 3001 0 = [(0, 3000), (3000, 3000)] := by
  rw [windowBounds, windowBounds, windowBounds]
  norm_num [ZIP_NUM_SHARED_INDEX_LIMIT]

theorem writeShards_nil (gz : String → List Nat) (hexsha : List Nat → String) :
    writeShards gz hexsha [] = ⟨[], 0, []⟩ := by
  rw [writeShards]
  norm_num [windowBounds_len0]

/-- C1 (code_bug): `writeIndexesToZip` does not partition the sorted CDX
array into contiguous windows covering every line. The clamp
`upperBound = cdxArray.length - 1` (src/index.js line 443) drops the
last CDXJ line whenever the array length is not a multiple of 3000: for
the two-line input the only window is `[0, 1)` and holds just the first
line, and the gzipped output contains only that line's bytes. For 3001
lines the loop does yield two windows / two IDX entries as the claim
says, but the second window `[3000, 3000)` is empty, so the 3001st line
falls in no window. -/
theorem C1_window_partition_bug :
    cdxWindows ["a\n", "b\n"] = [["a\n"]] ∧
    (writeShards strBytes (fun _ => "h") ["a\n", "b\n"]).cdx = strBytes "a\n" ∧
    ((writeShards strBytes (fun _ => "h") ["a\n", "b\n"]).idxEntries.length = 1) ∧
    windowBounds 3001 0 = [(0, 3000), (3000, 3000)] := by
  have hlen : List.length ["a\n", "b\n"] = 2 := rfl
  refine ⟨?_, ?_, ?_, windowBounds_len3001⟩
  · rw [cdxWindows, hlen, windowBounds_len2]
    decide
  · rw [writeShards, hlen, windowBounds_len2]
    decide
  · rw [writeShards, hlen, windowBounds_len2]
    decide

/-- C4: with an empty harvested CDX array the shard loop body never
runs: the `index.cdx.gz` buffer stays zero bytes, `this.idxArray` stays
empty, `index.idx` is exactly the `!meta` header line, and with an empty
pages array `pages.jsonl` is exactly its header line. -/
theorem C4_empty_inputs (gz : String → List Nat) (hexsha : List Nat → String) :
    (writeShards gz hexsha []).cdx = []
    ∧ idxArrayOf gz hexsha [] = []
    ∧ idxFileOf gz hexsha []
        = "!meta 0 \x7b\"format\": \"cdxj-gzip-1.0\", \"filename\": \"index.cdx.gz\"\x7d\n"
    ∧ pagesJSONLOf []
        = "\x7b\"format\": \"json-pages-1.0\", \"id\": \"pages\", \"title\": \"All Pages\"\x7d\n" := by
  refine ⟨?_, ?_, ?_, rfl⟩
  · rw [writeShards_nil]
  · rw [idxArrayOf, writeShards_nil]
    rfl
  · rw [idxFileOf, idxArrayOf, writeShards_nil]
    rfl

theorem getD_map_of_lt {α β : Type} (f : α → β) (l : List α) (k : Nat)
    (h : k < l.length) (d : β) (d' : α) :
    (l.map f).getD k d = f (l.getD k d') := by
  induction l generalizing k with
  | nil => simp at h
  | cons x l ih =>
      cases k with
      | zero => simp
      | succ k =>
          simp only [List.map_cons, List.getD_cons_succ]
          exact ih k (by simpa using h)

theorem writeShards_idxEntries (gz : String → List Nat)
    (hexsha : List Nat → String) (cdxArray : List String) :
    (writeShards gz hexsha cdxArray).idxEntries
      = entriesFrom gz hexsha cdxArray 0 (windowBounds cdxArray.length 0) := by
  rw [writeShards, shardFold_spec]
  rfl

theorem writeShards_cdx (gz : String → List Nat)
    (hexsha : List Nat → String) (cdxArray : List String) :
    (writeShards gz hexsha cdxArray).cdx = (shardsOf gz cdxArray).flatten := by
  rw [writeShards, shardFold_spec, shardsOf]
  rfl

/-- C3: for every shard index `k`, the `k`-th IDX entry holds the first
space-separated token of the CDXJ line at the window start `3000 * k`,
an `offset` equal to the summed byte lengths of all preceding gzipped
shards, a `length` equal to the `k`-th gzipped shard's byte length, a
digest `"sha256:" ++ hex(sha256(shard))` and filename `index.cdx.gz`;
the rendered IDX line is token, space, JSON, newline; the
`offset..offset+length` slice of the `index.cdx.gz` buffer is exactly
the `k`-th gzipped shard; and with exactly two shards the second offset
equals the first length. -/
theorem C3_idx_lines (gz : String → List Nat) (hexsha : List Nat → String)
    (cdxArray : List String) (k : Nat)
    (h : k < (shardsOf gz cdxArray).length) :
    (writeShards gz hexsha cdxArray).idxEntries.length
        = (shardsOf gz cdxArray).length
    ∧ (idxArrayOf gz hexsha cdxArray).getD k ""
        = ((writeShards gz hexsha cdxArray).idxEntries.getD k dfltEntry).1
          ++ " "
          ++ stringifyIdxMeta
            ((writeShards gz hexsha cdxArray).idxEntries.getD k dfltEntry).2
          ++ "\n"
    ∧ ((writeShards gz hexsha cdxArray).idxEntries.getD k dfltEntry).1
        = firstTok (cdxArray.getD (ZIP_NUM_SHARED_INDEX_LIMIT * k) "")
    ∧ ((writeShards gz hexsha cdxArray).idxEntries.getD k dfltEntry).2.offset
        = (((shardsOf gz cdxArray).take k).map List.length).sum
    ∧ ((writeShards gz hexsha cdxArray).idxEntries.getD k dfltEntry).2.length
        = ((shardsOf gz cdxArray).getD k []).length
    ∧ ((writeShards gz hexsha cdxArray).idxEntries.getD k dfltEntry).2.digest
        = "sha256:" ++ hexsha ((shardsOf gz cdxArray).getD k [])
    ∧ ((writeShards gz hexsha cdxArray).idxEntries.getD k dfltEntry).2.filename
        = "index.cdx.gz"
    ∧ (((writeShards gz hexsha cdxArray).cdx.drop
          ((writeShards gz hexsha cdxArray).idxEntries.getD k dfltEntry).2.offset).take
          ((writeShards gz hexsha cdxArray).idxEntries.getD k dfltEntry).2.length
        = (shardsOf gz cdxArray).getD k [])
    ∧ ((shardsOf gz cdxArray).length = 2 →
        ((writeShards gz hexsha cdxArray).idxEntries.getD 1 dfltEntry).2.offset
          = ((writeShards gz hexsha cdxArray).idxEntries.getD 0 dfltEntry).2.length) := by
  have hk : k < (windowBounds cdxArray.length 0).length := by
    simpa [shardsOf] using h
  have hes := writeShards_idxEntries gz hexsha cdxArray
  have hcdx := writeShards_cdx gz hexsha cdxArray
  have hGet := entriesFrom_getD gz hexsha cdxArray 0
    (windowBounds cdxArray.length 0) k hk
  have hfst := windowBounds_getD_fst cdxArray.length k 0 hk
  have hshardk : (shardsOf gz cdxArray).getD k []
      = gz (shardSlice cdxArray
          ((windowBounds cdxArray.length 0).getD k (0, 0))) := by
    rw [shardsOf]
    exact getD_map_of_lt _ _ k hk [] (0, 0)
  have hlen : (writeShards gz hexsha cdxArray).idxEntries.length
      = (shardsOf gz cdxArray).length := by
    rw [hes, entriesFrom_length, shardsOf, List.length_map]
  refine ⟨hlen, ?_, ?_, ?_, ?_, ?_, ?_, ?_, ?_⟩
  · rw [idxArrayOf]
    rw [getD_map_of_lt idxLineOfEntry _ k (by rw [hlen]; exact h) "" dfltEntry]
    rfl
  · rw [hes, hGet, hfst]
    simp
  · rw [hes, hGet]
    simp only
    rw [shardsOf, ← List.map_take, List.map_map]
    simp [Function.comp_def]
  · rw [hes, hGet, hshardk]
  · rw [hes, hGet, hshardk]
  · rw [hes, hGet]
  · rw [hes, hGet, hcdx, hshardk]
    simp only
    have := flatten_slice (shardsOf gz cdxArray) k h
    rw [hshardk] at this
    rw [shardsOf, ← List.map_take, List.map_map] at this
    simpa [Function.comp_def] using this
  · intro h2
    have hbs2 : (windowBounds cdxArray.length 0).length = 2 := by
      rw [shardsOf, List.length_map] at h2
      exact h2
    obtain ⟨b0, b1, hb⟩ := List.length_eq_two.mp hbs2
    have h1lt : (1 : Nat) < (windowBounds cdxArray.length 0).length := by omega
    have h0lt : (0 : Nat) < (windowBounds cdxArray.length 0).length := by omega
    have hG1 := entriesFrom_getD gz hexsha cdxArray 0
      (windowBounds cdxArray.length 0) 1 h1lt
    have hG0 := entriesFrom_getD gz hexsha cdxArray 0
      (windowBounds cdxArray.length 0) 0 h0lt
    rw [hes, hG1, hG0]
    simp [hb]

theorem C3_idx_lines_witness :
    0 < (shardsOf strBytes ["a b\n"]).length
    ∧ ((writeShards strBytes hexh ["a b\n"]).idxEntries.length
        = (shardsOf strBytes ["a b\n"]).length
    ∧ (idxArrayOf strBytes hexh ["a b\n"]).getD 0 ""
        = ((writeShards strBytes hexh ["a b\n"]).idxEntries.getD 0 dfltEntry).1
          ++ " "
          ++ stringifyIdxMeta
            ((writeShards strBytes hexh ["a b\n"]).idxEntries.getD 0 dfltEntry).2
          ++ "\n"
    ∧ ((writeShards strBytes hexh ["a b\n"]).idxEntries.getD 0 dfltEntry).1
        = firstTok (["a b\n"].getD (ZIP_NUM_SHARED_INDEX_LIMIT * 0) "")
    ∧ ((writeShards strBytes hexh ["a b\n"]).idxEntries.getD 0 dfltEntry).2.offset
        = (((shardsOf strBytes ["a b\n"]).take 0).map List.length).sum
    ∧ ((writeShards strBytes hexh ["a b\n"]).idxEntries.getD 0 dfltEntry).2.length
        = ((shardsOf strBytes ["a b\n"]).getD 0 []).length
    ∧ ((writeShards strBytes hexh ["a b\n"]).idxEntries.getD 0 dfltEntry).2.digest
        = "sha256:" ++ hexh ((shardsOf strBytes ["a b\n"]).getD 0 [])
    ∧ ((writeShards strBytes hexh ["a b\n"]).idxEntries.getD 0 dfltEntry).2.filename
        = "index.cdx.gz"
    ∧ (((writeShards strBytes hexh ["a b\n"]).cdx.drop
          ((writeShards strBytes hexh ["a b\n"]).idxEntries.getD 0 dfltEntry).2.offset).take
          ((writeShards strBytes hexh ["a b\n"]).idxEntries.getD 0 dfltEntry).2.length
        = (shardsOf strBytes ["a b\n"]).getD 0 [])
    ∧ ((shardsOf strBytes ["a b\n"]).length = 2 →
        ((writeShards strBytes hexh ["a b\n"]).idxEntries.getD 1 dfltEntry).2.offset
          = ((writeShards strBytes hexh ["a b\n"]).idxEntries.getD 0 dfltEntry).2.length)) := by
  have hpos : 0 < (shardsOf strBytes ["a b\n"]).length := by
    rw [shardsOf, show List.length ["a b\n"] = 1 from rfl, windowBounds_len1]
    decide
  exact ⟨hpos, C3_idx_lines strBytes hexh ["a b\n"] 0 hpos⟩

theorem foldl_inner_eq_flatten {α β γ : Type} (g : β → List α)
    (ins : γ → α → γ) (L : List β) (t : γ) :
    L.foldl (fun t r => (g r).foldl ins t) t
      = ((L.map g).flatten).foldl ins t := by
  induction L generalizing t with
  | nil => rfl
  | cons b L ih =>
      simp only [List.foldl_cons, List.map_cons, List.flatten_cons,
        List.foldl_append]
      exact ih ((g b).foldl ins t)

/-- C5: after merging all worker results into the (initially empty)
trees and harvesting, the CDXJ array is strictly ascending in raw
byte order, has no duplicates, contains exactly the lines reported by
the workers, and is independent of the per-file arrival order; for the
pages tree, the first inserted value for a URL wins
(`setIfNotPresent`). -/
theorem C5_sorted_dedup_order_independent
    (results results' : List WorkerResult) (s : RunState)
    (hcdx0 : s.cdxTree = []) (hpages0 : s.pagesTree = [])
    (hperm : results.Perm results')
    (s2 s1 s2' s1' : RunState)
    (hidx : indexWARCs results s = Except.ok s2)
    (hharv : harvestArraysFromTrees s2 = Except.ok s1)
    (hidx' : indexWARCs results' s = Except.ok s2')
    (hharv' : harvestArraysFromTrees s2' = Except.ok s1') :
    List.Pairwise (fun a b => strLt a b = true) s1.cdxArray
    ∧ s1.cdxArray.Nodup
    ∧ (∀ l, l ∈ s1.cdxArray ↔ ∃ r ∈ results, l ∈ r.cdx)
    ∧ s1.cdxArray = s1'.cdxArray
    ∧ (∀ k, treeLookup k s2.pagesTree
        = ((results.map WorkerResult.pages).flatten).find?
            (fun p => p.url == k)) := by
  have hready : s.ready = true := by
    by_contra hr
    rw [indexWARCs, readyStateCheck, if_neg hr] at hidx
    exact Except.noConfusion hidx
  rw [indexWARCs, readyStateCheck, if_pos hready] at hidx hidx'
  rw [Except.ok.injEq] at hidx hidx'
  have hcdx2 : s2.cdxTree
      = ((results.map WorkerResult.cdx).flatten).foldl
          (fun t v => setIfNotPresent v true t) [] := by
    rw [← hidx]
    simp only [hcdx0]
    exact foldl_inner_eq_flatten WorkerResult.cdx _ results []
  have hcdx2' : s2'.cdxTree
      = ((results'.map WorkerResult.cdx).flatten).foldl
          (fun t v => setIfNotPresent v true t) [] := by
    rw [← hidx']
    simp only [hcdx0]
    exact foldl_inner_eq_flatten WorkerResult.cdx _ results' []
  have hpages2 : s2.pagesTree
      = ((results.map WorkerResult.pages).flatten).foldl
          (fun t p => setIfNotPresent p.url p t) [] := by
    rw [← hidx]
    simp only [hpages0]
    exact foldl_inner_eq_flatten WorkerResult.pages _ results []
  have hsorted2 : TreeSorted s2.cdxTree := by
    rw [hcdx2]
    exact sorted_foldl_ins (fun v => v) (fun _ => true) _ (by constructor)
  have hsorted2' : TreeSorted s2'.cdxTree := by
    rw [hcdx2']
    exact sorted_foldl_ins (fun v => v) (fun _ => true) _ (by constructor)
  rw [harvestArraysFromTrees, readyStateCheck] at hharv hharv'
  have hready2 : s2.ready = true := by
    rw [← hidx]
    exact hready
  have hready2' : s2'.ready = true := by
    rw [← hidx']
    exact hready
  rw [if_pos hready2, Except.ok.injEq] at hharv
  rw [if_pos hready2', Except.ok.injEq] at hharv'
  have harr : s1.cdxArray = keysArray s2.cdxTree := by
    rw [← hharv]
  have harr' : s1'.cdxArray = keysArray s2'.cdxTree := by
    rw [← hharv']
  have hmem : ∀ l, l ∈ s1.cdxArray ↔ ∃ r ∈ results, l ∈ r.cdx := by
    intro l
    rw [harr, hcdx2]
    rw [mem_keys_foldl_ins (fun v => v) (fun _ => true)]
    simp only [keysArray, List.map_nil, List.not_mem_nil, false_or]
    constructor
    · rintro ⟨x, hx, rfl⟩
      obtain ⟨lc, hlc, hxin⟩ := List.mem_flatten.mp hx
      obtain ⟨r, hr, rfl⟩ := List.mem_map.mp hlc
      exact ⟨r, hr, hxin⟩
    · rintro ⟨r, hr, hin⟩
      exact ⟨l, List.mem_flatten.mpr ⟨r.cdx, List.mem_map.mpr ⟨r, hr, rfl⟩, hin⟩, rfl⟩
  have hmem' : ∀ l, l ∈ s1'.cdxArray ↔ ∃ r ∈ results', l ∈ r.cdx := by
    intro l
    rw [harr', hcdx2']
    rw [mem_keys_foldl_ins (fun v => v) (fun _ => true)]
    simp only [keysArray, List.map_nil, List.not_mem_nil, false_or]
    constructor
    · rintro ⟨x, hx, rfl⟩
      obtain ⟨lc, hlc, hxin⟩ := List.mem_flatten.mp hx
      obtain ⟨r, hr, rfl⟩ := List.mem_map.mp hlc
      exact ⟨r, hr, hxin⟩
    · rintro ⟨r, hr, hin⟩
      exact ⟨l, List.mem_flatten.mpr ⟨r.cdx, List.mem_map.mpr ⟨r, hr, rfl⟩, hin⟩, rfl⟩
  have hpair : List.Pairwise (fun a b => strLt a b = true) s1.cdxArray := by
    rw [harr]
    exact pairwise_keys_of_sorted hsorted2
  have hpair' : List.Pairwise (fun a b => strLt a b = true) s1'.cdxArray := by
    rw [harr']
    exact pairwise_keys_of_sorted hsorted2'
  refine ⟨hpair, nodup_of_pairwise_strLt hpair, hmem, ?_, ?_⟩
  · refine sorted_strings_ext ?_ hpair hpair'
    intro a
    rw [hmem a, hmem' a]
    constructor
    · rintro ⟨r, hr, hin⟩
      exact ⟨r, hperm.mem_iff.mp hr, hin⟩
    · rintro ⟨r, hr, hin⟩
      exact ⟨r, hperm.mem_iff.mpr hr, hin⟩
  · intro k
    rw [hpages2]
    have := @treeLookup_foldl_ins WACZPage WACZPage.url
      ((results.map WorkerResult.pages).flatten) [] (by constructor) k
    rw [this]
    simp [treeLookup, Option.elim]

theorem C5_sorted_dedup_order_independent_witness :
    List.Pairwise (fun a b => strLt a b = true)
        (runOk (harvestArraysFromTrees (runOk (indexWARCs [wr1, wr2] sW)))).cdxArray
    ∧ (runOk (harvestArraysFromTrees (runOk (indexWARCs [wr1, wr2] sW)))).cdxArray.Nodup
    ∧ (∀ l, l ∈ (runOk (harvestArraysFromTrees (runOk (indexWARCs [wr1, wr2] sW)))).cdxArray
          ↔ ∃ r ∈ [wr1, wr2], l ∈ r.cdx)
    ∧ (runOk (harvestArraysFromTrees (runOk (indexWARCs [wr1, wr2] sW)))).cdxArray
        = (runOk (harvestArraysFromTrees (runOk (indexWARCs [wr2, wr1] sW)))).cdxArray
    ∧ (∀ k, treeLookup k (runOk (indexWARCs [wr1, wr2] sW)).pagesTree
        = (([wr1, wr2].map WorkerResult.pages).flatten).find?
            (fun p => p.url == k)) :=
  C5_sorted_dedup_order_independent [wr1, wr2] [wr2, wr1] sW rfl rfl
    (List.Perm.swap wr2 wr1 [])
    (runOk (indexWARCs [wr1, wr2] sW))
    (runOk (harvestArraysFromTrees (runOk (indexWARCs [wr1, wr2] sW))))
    (runOk (indexWARCs [wr2, wr1] sW))
    (runOk (harvestArraysFromTrees (runOk (indexWARCs [wr2, wr1] sW))))
    rfl rfl rfl rfl

theorem fnbUrl_spec (u : String → Option String) (opts : WACZOptions)
    (sw : RunState × List String) :
    fnbUrl u opts sw
      = ({ sw.1 with url := optUrlVal u opts sw.1.url },
          sw.2 ++ urlWarn u opts) := by
  obtain ⟨s, w⟩ := sw
  rw [fnbUrl, optUrlVal, urlWarn]
  cases opts.url with
  | none => simp
  | some x =>
      by_cases ht : strTruthy x = true
      · simp only [ht, if_true]
        cases u x <;> simp
      · simp only [Bool.not_eq_true] at ht
        simp [ht]

theorem fnbTs_spec (d : String → Option String) (opts : WACZOptions)
    (sw : RunState × List String) :
    fnbTs d opts sw
      = ({ sw.1 with ts := optTsVal d opts sw.1.ts },
          sw.2 ++ tsWarn d opts) := by
  obtain ⟨s, w⟩ := sw
  rw [fnbTs, optTsVal, tsWarn]
  cases opts.ts with
  | none => simp
  | some x =>
      by_cases ht : strTruthy x = true
      · simp only [ht, if_true]
        cases d x <;> simp
      · simp only [Bool.not_eq_true] at ht
        simp [ht]

theorem fnbTitle_spec (opts : WACZOptions) (sw : RunState × List String) :
    fnbTitle opts sw = ({ sw.1 with title := optTitleVal opts sw.1.title }, sw.2) := by
  obtain ⟨s, w⟩ := sw
  rw [fnbTitle, optTitleVal]
  cases opts.title with
  | none => simp
  | some t =>
      by_cases ht : strTruthy t = true
      · simp [ht]
      · simp only [Bool.not_eq_true] at ht
        simp [ht]

theorem fnbDescription_spec (opts : WACZOptions) (sw : RunState × List String) :
    fnbDescription opts sw
      = ({ sw.1 with description := optDescVal opts sw.1.description }, sw.2) := by
  obtain ⟨s, w⟩ := sw
  rw [fnbDescription, optDescVal]
  cases opts.description with
  | none => simp
  | some d =>
      by_cases ht : strTruthy d = true
      · simp [ht]
      · simp only [Bool.not_eq_true] at ht
        simp [ht]

theorem fnbSigningUrl_spec (u : String → Option String) (opts : WACZOptions)
    (sw : RunState × List String) :
    fnbSigningUrl u opts sw
      = ({ sw.1 with signingUrl := optSignUrlVal u opts sw.1.signingUrl },
          sw.2 ++ signWarn u opts) := by
  obtain ⟨s, w⟩ := sw
  rw [fnbSigningUrl, optSignUrlVal, signWarn]
  cases opts.signingUrl with
  | none => simp
  | some x =>
      by_cases ht : strTruthy x = true
      · simp only [ht, if_true]
        cases u x <;> simp
      · simp only [Bool.not_eq_true] at ht
        simp [ht]

theorem fnbSigningToken_spec (opts : WACZOptions) (sw : RunState × List String) :
    fnbSigningToken opts sw
      = ({ sw.1 with signingToken :=
            optTokenVal opts sw.1.signingUrl sw.1.signingToken }, sw.2) := by
  obtain ⟨s, w⟩ := sw
  rw [fnbSigningToken, optTokenVal]
  cases opts.signingToken with
  | none => simp
  | some tok =>
      by_cases ht : (strTruthy tok && s.signingUrl.isSome) = true
      · simp [ht]
      · simp only [Bool.not_eq_true] at ht
        simp [ht]

theorem fnbExtras_spec (j : String → Bool) (opts : WACZOptions)
    (sw : RunState × List String) :
    fnbExtras j opts sw
      = ({ sw.1 with datapackageExtras :=
            optExtrasVal j opts sw.1.datapackageExtras },
          sw.2 ++ extrasWarn j opts) := by
  obtain ⟨s, w⟩ := sw
  rw [fnbExtras, optExtrasVal, extrasWarn]
  cases opts.datapackageExtras with
  | none => simp
  | some x =>
      by_cases hs : strTruthy x = true
      · by_cases hj : j x = true
        · simp [hs, hj]
        · simp only [Bool.not_eq_true] at hj
          simp [hs, hj]
      · simp only [Bool.not_eq_true] at hs
        simp [hs]

theorem fnb_spec (u d : String → Option String) (j : String → Bool)
    (opts : WACZOptions) (s : RunState) :
    filterNonBlockingOptions u d j opts s
      = ({ s with
            detectPages :=
              if opts.detectPages = some (JSVal.vBool false) then false
              else s.detectPages
            url := optUrlVal u opts s.url
            ts := optTsVal d opts s.ts
            title := optTitleVal opts s.title
            description := optDescVal opts s.description
            signingUrl := optSignUrlVal u opts s.signingUrl
            signingToken :=
              optTokenVal opts (optSignUrlVal u opts s.signingUrl) s.signingToken
            datapackageExtras := optExtrasVal j opts s.datapackageExtras },
          urlWarn u opts ++ tsWarn d opts ++ signWarn u opts
            ++ extrasWarn j opts) := by
  rw [filterNonBlockingOptions, fnbUrl_spec, fnbTs_spec, fnbTitle_spec,
    fnbDescription_spec, fnbSigningUrl_spec, fnbSigningToken_spec,
    fnbExtras_spec, fnbDetectPages]
  by_cases hd : opts.detectPages = some (JSVal.vBool false)
  · simp [hd]
  · simp [hd]

theorem filterBlockingOptions_ok (g : String → List String) (pwd : String)
    (opts : WACZOptions) (s : RunState) (f : String)
    (hf : opts.file = some f) (ht : strTruthy f = true)
    (hw : 1 ≤ ((g (strTrim f)).filter isWarcFile).length)
    (ho : strEndsWith (strToLower (outputVal pwd opts)) ".wacz" = true) :
    filterBlockingOptions g pwd opts s = Except.ok { s with
      file := some (strTrim f)
      WARCs := (g (strTrim f)).filter isWarcFile
      output := outputVal pwd opts } := by
  rw [filterBlockingOptions, hf]
  simp only [ht, Bool.true_eq_false, not_false_eq_true, if_false,
    Bool.not_eq_true, if_neg (by omega : ¬((g (strTrim f)).filter isWarcFile).length < 1)]
  rw [show (match opts.output with
      | some o => if strTruthy o then strTrim o else pwd ++ "/archive.wacz"
      | none => pwd ++ "/archive.wacz") = outputVal pwd opts from rfl]
  simp [ho]

theorem filterBlockingOptions_error_no_warc (g : String → List String)
    (pwd : String) (opts : WACZOptions) (s : RunState) (f : String)
    (hf : opts.file = some f) (ht : strTruthy f = true)
    (hw : ((g (strTrim f)).filter isWarcFile).length < 1) :
    filterBlockingOptions g pwd opts s
      = Except.error "\"file\" must be a valid path leading to at least 1 .warc or .warc.gz file." := by
  rw [filterBlockingOptions, hf]
  simp [ht, hw]

theorem filterBlockingOptions_error_output (g : String → List String)
    (pwd : String) (opts : WACZOptions) (s : RunState) (f : String)
    (hf : opts.file = some f) (ht : strTruthy f = true)
    (hw : 1 ≤ ((g (strTrim f)).filter isWarcFile).length)
    (ho : strEndsWith (strToLower (outputVal pwd opts)) ".wacz" = false) :
    filterBlockingOptions g pwd opts s
      = Except.error "\"output\" must be a valid \"*.wacz\" path on which the program can write." := by
  rw [filterBlockingOptions, hf]
  simp only [ht, Bool.true_eq_false, not_false_eq_true, if_false,
    Bool.not_eq_true, if_neg (by omega : ¬((g (strTrim f)).filter isWarcFile).length < 1)]
  rw [show (match opts.output with
      | some o => if strTruthy o then strTrim o else pwd ++ "/archive.wacz"
      | none => pwd ++ "/archive.wacz") = outputVal pwd opts from rfl]
  simp [ho]

/-- Closed form of a successful construction. -/
theorem waczConstructor_spec (g : String → List String)
    (u d : String → Option String) (j : String → Bool) (pwd nowIso : String)
    (opts : WACZOptions) (f : String)
    (hf : opts.file = some f) (ht : strTruthy f = true)
    (hw : 1 ≤ ((g (strTrim f)).filter isWarcFile).length)
    (ho : strEndsWith (strToLower (outputVal pwd opts)) ".wacz" = true) :
    waczConstructor g u d j pwd nowIso opts = Except.ok
      ({ ready := true
         detectPages :=
           if opts.detectPages = some (JSVal.vBool false) then false else true
         file := some (strTrim f)
         output := outputVal pwd opts
         url := optUrlVal u opts none
         ts := optTsVal d opts nowIso
         title := optTitleVal opts none
         description := optDescVal opts none
         signingUrl := optSignUrlVal u opts none
         signingToken := optTokenVal opts (optSignUrlVal u opts none) none
         datapackageExtras := optExtrasVal j opts none
         WARCs := (g (strTrim f)).filter isWarcFile
         outputStreamOpen := some (outputVal pwd opts) },
       urlWarn u opts ++ tsWarn d opts ++ signWarn u opts
         ++ extrasWarn j opts) := by
  rw [waczConstructor, filterBlockingOptions_ok g pwd opts _ f hf ht hw ho]
  dsimp only
  rw [fnb_spec]

/-- C6 counterexample: no `ts` option is provided, yet the emitted
datapackage has `mainPageDate` (the instance field `ts` defaults to the
construction-time `toISOString()`, which is truthy); and `title` is the
trimmed provided title, not the provided title verbatim. -/
theorem C6_counterexample :
    optsC6.ts = none
    ∧ (buildDatapackage "2026-01-02T00:00:00.000Z" "js-wacz 0.0.0"
        (ctorOk (waczConstructor gW uW dW jW "/p" NOW_ISO optsC6)).1).mainPageDate
      = some NOW_ISO
    ∧ optsC6.title = some " T "
    ∧ (buildDatapackage "2026-01-02T00:00:00.000Z" "js-wacz 0.0.0"
        (ctorOk (waczConstructor gW uW dW jW "/p" NOW_ISO optsC6)).1).title
      = "T" := by
  refine ⟨rfl, ?_, rfl, ?_⟩ <;> rfl

theorem filterBlockingOptions_shape (g : String → List String) (pwd : String)
    (opts : WACZOptions) (s sB : RunState)
    (h : filterBlockingOptions g pwd opts s = Except.ok sB) :
    ∃ fl wa out, sB = { s with file := fl, WARCs := wa, output := out } := by
  rw [filterBlockingOptions] at h
  cases hf : opts.file with
  | none =>
      rw [hf] at h
      exact Except.noConfusion h
  | some f =>
      rw [hf] at h
      dsimp only at h
      split_ifs at h
      all_goals
        first
        | exact Except.noConfusion h
        | (rw [Except.ok.injEq] at h
           exact ⟨_, _, _, h.symm⟩)

/-- C6 (amended): the datapackage has `wacz_version` `"1.1.1"`, `title`
the trimmed provided title when truthy (else `"WACZ"`), `description`
the trimmed provided description when truthy (else `""`), `mainPageUrl`
present exactly when a truthy `url` option parsed successfully, and
`mainPageDate` **always** present: the parsed `ts` when one was provided
and valid, otherwise the construction-time default timestamp. -/
theorem C6_amended_datapackage (g : String → List String)
    (u d : String → Option String) (j : String → Bool)
    (pwd nowIso createdNow software : String) (opts : WACZOptions)
    (sc : RunState) (warns : List String)
    (hc : waczConstructor g u d j pwd nowIso opts = Except.ok (sc, warns))
    (hnow : strTruthy nowIso = true)
    (hd : ∀ x y, d x = some y → strTruthy y = true)
    (hu : ∀ x y, u x = some y → strTruthy y = true) :
    (buildDatapackage createdNow software sc).wacz_version = "1.1.1"
    ∧ (buildDatapackage createdNow software sc).title
        = (match opts.title with
           | some t =>
               if strTruthy t && strTruthy (strTrim t) then strTrim t
               else "WACZ"
           | none => "WACZ")
    ∧ (buildDatapackage createdNow software sc).description
        = (match opts.description with
           | some t =>
               if strTruthy t && strTruthy (strTrim t) then strTrim t
               else ""
           | none => "")
    ∧ ((buildDatapackage createdNow software sc).mainPageUrl ≠ none
        ↔ ∃ x, opts.url = some x ∧ strTruthy x = true ∧ (u x).isSome = true)
    ∧ (buildDatapackage createdNow software sc).mainPageDate
        = some (optTsVal d opts nowIso) := by
  rw [waczConstructor] at hc
  cases hb : filterBlockingOptions g pwd opts { ts := nowIso } with
  | error e =>
      rw [hb] at hc
      exact Except.noConfusion hc
  | ok sB =>
      obtain ⟨fl, wa, out, hsB⟩ := filterBlockingOptions_shape _ _ _ _ _ hb
      rw [hb] at hc
      dsimp only at hc
      rw [fnb_spec, hsB] at hc
      rw [Except.ok.injEq, Prod.mk.injEq] at hc
      obtain ⟨hsc, _⟩ := hc
      refine ⟨?_, ?_, ?_, ?_, ?_⟩
      · rw [← hsc]
        rfl
      · rw [← hsc]
        show (match optTitleVal opts none with
          | some t => if strTruthy t then t else "WACZ"
          | none => "WACZ") = _
        rw [optTitleVal]
        cases htl : opts.title with
        | none => rfl
        | some t =>
            by_cases ht : strTruthy t = true
            · simp [ht]
            · simp only [Bool.not_eq_true] at ht
              simp [ht]
      · rw [← hsc]
        show (match optDescVal opts none with
          | some t => if strTruthy t then t else ""
          | none => "") = _
        rw [optDescVal]
        cases htl : opts.description with
        | none => rfl
        | some t =>
            by_cases ht : strTruthy t = true
            · simp [ht]
            · simp only [Bool.not_eq_true] at ht
              simp [ht]
      · rw [← hsc]
        show (match optUrlVal u opts none with
          | some x => if strTruthy x then some x else none
          | none => (none : Option String)) ≠ none ↔ _
        rw [optUrlVal]
        cases hurl : opts.url with
        | none => simp [hurl]
        | some x =>
            by_cases ht : strTruthy x = true
            · simp only [ht, if_true]
              cases hux : u x with
              | none => simp [hurl, hux, ht]
              | some href =>
                  have hh := hu x href hux
                  simp [hurl, hux, hh, ht]
            · simp only [Bool.not_eq_true] at ht
              simp [hurl, ht]
      · rw [← hsc]
        show (if strTruthy (optTsVal d opts nowIso) then
            some (optTsVal d opts nowIso) else none) = _
        have htv : strTruthy (optTsVal d opts nowIso) = true := by
          rw [optTsVal]
          cases hts : opts.ts with
          | none => exact hnow
          | some x =>
              by_cases ht : strTruthy x = true
              · simp only [ht, if_true]
                cases hdx : d x with
                | none => exact hnow
                | some iso => exact hd x iso hdx
              · simp only [Bool.not_eq_true] at ht
                simp [ht, hnow]
        simp [htv]

theorem C6_amended_datapackage_witness :
    (buildDatapackage "2026-01-02T00:00:00.000Z" "js-wacz 0.0.0"
        (ctorOk (waczConstructor gW uW dW jW "/p" NOW_ISO optsC6)).1).wacz_version
      = "1.1.1"
    ∧ (buildDatapackage "2026-01-02T00:00:00.000Z" "js-wacz 0.0.0"
        (ctorOk (waczConstructor gW uW dW jW "/p" NOW_ISO optsC6)).1).title
        = (match optsC6.title with
           | some t =>
               if strTruthy t && strTruthy (strTrim t) then strTrim t
               else "WACZ"
           | none => "WACZ")
    ∧ (buildDatapackage "2026-01-02T00:00:00.000Z" "js-wacz 0.0.0"
        (ctorOk (waczConstructor gW uW dW jW "/p" NOW_ISO optsC6)).1).description
        = (match optsC6.description with
           | some t =>
               if strTruthy t && strTruthy (strTrim t) then strTrim t
               else ""
           | none => "")
    ∧ ((buildDatapackage "2026-01-02T00:00:00.000Z" "js-wacz 0.0.0"
        (ctorOk (waczConstructor gW uW dW jW "/p" NOW_ISO optsC6)).1).mainPageUrl
          ≠ none
        ↔ ∃ x, optsC6.url = some x ∧ strTruthy x = true ∧ (uW x).isSome = true)
    ∧ (buildDatapackage "2026-01-02T00:00:00.000Z" "js-wacz 0.0.0"
        (ctorOk (waczConstructor gW uW dW jW "/p" NOW_ISO optsC6)).1).mainPageDate
        = some (optTsVal dW optsC6 NOW_ISO) :=
  C6_amended_datapackage gW uW dW jW "/p" NOW_ISO "2026-01-02T00:00:00.000Z"
    "js-wacz 0.0.0" optsC6
    (ctorOk (waczConstructor gW uW dW jW "/p" NOW_ISO optsC6)).1
    (ctorOk (waczConstructor gW uW dW jW "/p" NOW_ISO optsC6)).2
    rfl
    (by decide)
    (by
      intro x y h
      rw [dW] at h
      split_ifs at h
      rw [Option.some.injEq] at h
      rw [← h]
      decide)
    (by
      intro x y h
      rw [uW] at h
      split_ifs at h with hx
      rw [Option.some.injEq] at h
      rw [← h, strTruthy, bool_not_true hx]
      rfl)

/-- C8 counterexample: with an invalid `detectPages` value and an
invalid (empty) `url`, construction succeeds and the fields keep their
defaults, but **no warn is logged at all** — contradicting "for every
invalid value of a non-required option ... a warn is logged". -/
theorem C8_counterexample :
    (waczConstructor gW uW dW jW "/p" NOW_ISO optsC8).isOk = true
    ∧ (ctorOk (waczConstructor gW uW dW jW "/p" NOW_ISO optsC8)).2 = []
    ∧ (ctorOk (waczConstructor gW uW dW jW "/p" NOW_ISO optsC8)).1.detectPages = true
    ∧ (ctorOk (waczConstructor gW uW dW jW "/p" NOW_ISO optsC8)).1.url = none := by
  refine ⟨rfl, rfl, rfl, rfl⟩

theorem notmem_urlWarn (u : String → Option String) (opts : WACZOptions)
    (w : String) (hw : w ≠ "\"url\" provided is invalid. Skipping.") :
    w ∉ urlWarn u opts := by
  rw [urlWarn]
  cases hx : opts.url with
  | none => simp
  | some x =>
      dsimp only
      by_cases ht : strTruthy x = true
      · rw [if_pos ht]
        cases hux : u x with
        | none => simp [hw]
        | some _ => simp
      · rw [if_neg ht]
        simp

theorem notmem_tsWarn (d : String → Option String) (opts : WACZOptions)
    (w : String) (hw : w ≠ "\"ts\" provided is invalid. Skipping.") :
    w ∉ tsWarn d opts := by
  rw [tsWarn]
  cases hx : opts.ts with
  | none => simp
  | some x =>
      dsimp only
      by_cases ht : strTruthy x = true
      · rw [if_pos ht]
        cases hux : d x with
        | none => simp [hw]
        | some _ => simp
      · rw [if_neg ht]
        simp

theorem notmem_signWarn (u : String → Option String) (opts : WACZOptions)
    (w : String)
    (hw : w ≠ "\"signingUrl\" provided is not a valid url. Skipping.") :
    w ∉ signWarn u opts := by
  rw [signWarn]
  cases hx : opts.signingUrl with
  | none => simp
  | some x =>
      dsimp only
      by_cases ht : strTruthy x = true
      · rw [if_pos ht]
        cases hux : u x with
        | none => simp [hw]
        | some _ => simp
      · rw [if_neg ht]
        simp

/-- C8 (amended): invalid required options (no WARC after filtering, or
an output not ending in `.wacz`) fail construction; with valid required
options construction succeeds for any values of the non-required
options, each invalid non-required option keeps its default, and a warn
is logged for truthy-but-invalid `url`, `ts`, `signingUrl` and
truthy-but-non-serializable `datapackageExtras` — but an invalid
`detectPages` (anything other than exactly `false`) is dropped
silently, a present-but-falsy `datapackageExtras` is dropped with no
warn at all, and the only warn messages ever logged are those four. -/
theorem C8_amended_option_validation (g g2 : String → List String)
    (u d : String → Option String) (j : String → Bool) (pwd nowIso : String)
    (opts : WACZOptions) (f : String) (sc : RunState) (warns : List String)
    (hf : opts.file = some f) (ht : strTruthy f = true)
    (hw : 1 ≤ ((g (strTrim f)).filter isWarcFile).length)
    (ho : strEndsWith (strToLower (outputVal pwd opts)) ".wacz" = true)
    (hc : waczConstructor g u d j pwd nowIso opts = Except.ok (sc, warns))
    (hg2 : ((g2 (strTrim f)).filter isWarcFile).length < 1) :
    (∀ w ∈ warns, w ∈ ["\"url\" provided is invalid. Skipping.",
        "\"ts\" provided is invalid. Skipping.",
        "\"signingUrl\" provided is not a valid url. Skipping.",
        "\"datapackageExtras\" provided is not JSON-serializable object. Skipping."])
    ∧ (opts.detectPages ≠ some (JSVal.vBool false) → sc.detectPages = true)
    ∧ (∀ x, opts.url = some x → strTruthy x = true → u x = none →
        sc.url = none ∧ "\"url\" provided is invalid. Skipping." ∈ warns)
    ∧ (∀ x, opts.ts = some x → strTruthy x = true → d x = none →
        sc.ts = nowIso ∧ "\"ts\" provided is invalid. Skipping." ∈ warns)
    ∧ (∀ x, opts.signingUrl = some x → strTruthy x = true → u x = none →
        sc.signingUrl = none
        ∧ "\"signingUrl\" provided is not a valid url. Skipping." ∈ warns)
    ∧ (∀ x, opts.datapackageExtras = some x → strTruthy x = true →
        j x = false →
        sc.datapackageExtras = none
        ∧ "\"datapackageExtras\" provided is not JSON-serializable object. Skipping." ∈ warns)
    ∧ (∀ x, opts.datapackageExtras = some x → strTruthy x = false →
        sc.datapackageExtras = none
        ∧ "\"datapackageExtras\" provided is not JSON-serializable object. Skipping." ∉ warns)
    ∧ waczConstructor g2 u d j pwd nowIso opts
        = Except.error "\"file\" must be a valid path leading to at least 1 .warc or .warc.gz file."
    ∧ waczConstructor g u d j pwd nowIso { opts with output := some "x.zip" }
        = Except.error "\"output\" must be a valid \"*.wacz\" path on which the program can write." := by
  rw [waczConstructor_spec g u d j pwd nowIso opts f hf ht hw ho] at hc
  rw [Except.ok.injEq, Prod.mk.injEq] at hc
  obtain ⟨hsc, hwarns⟩ := hc
  refine ⟨?_, ?_, ?_, ?_, ?_, ?_, ?_, ?_, ?_⟩
  · intro w hwmem
    rw [← hwarns] at hwmem
    rcases List.mem_append.mp hwmem with hm | hm
    rotate_left
    · rw [extrasWarn] at hm
      rcases hex : opts.datapackageExtras with _ | x
      · rw [hex] at hm
        dsimp only at hm
        exact absurd hm (List.not_mem_nil w)
      · rw [hex] at hm
        dsimp only at hm
        by_cases hst : strTruthy x = true
        · rw [if_pos hst] at hm
          by_cases hj : j x = true
          · rw [if_pos hj] at hm
            exact absurd hm (List.not_mem_nil w)
          · rw [if_neg hj] at hm
            rw [List.mem_singleton] at hm
            subst hm
            simp
        · rw [if_neg hst] at hm
          exact absurd hm (List.not_mem_nil w)
    rcases List.mem_append.mp hm with hm2 | hm2
    rotate_left
    · rw [signWarn] at hm2
      rcases hsu : opts.signingUrl with _ | x
      · rw [hsu] at hm2
        dsimp only at hm2
        exact absurd hm2 (List.not_mem_nil w)
      · rw [hsu] at hm2
        dsimp only at hm2
        by_cases htx : strTruthy x = true
        · rw [if_pos htx] at hm2
          rcases hux : u x with _ | href
          · rw [hux] at hm2
            rw [List.mem_singleton] at hm2
            subst hm2
            simp
          · rw [hux] at hm2
            exact absurd hm2 (List.not_mem_nil w)
        · rw [if_neg htx] at hm2
          exact absurd hm2 (List.not_mem_nil w)
    rcases List.mem_append.mp hm2 with hm3 | hm3
    · rw [urlWarn] at hm3
      rcases hsu : opts.url with _ | x
      · rw [hsu] at hm3
        dsimp only at hm3
        exact absurd hm3 (List.not_mem_nil w)
      · rw [hsu] at hm3
        dsimp only at hm3
        by_cases htx : strTruthy x = true
        · rw [if_pos htx] at hm3
          rcases hux : u x with _ | href
          · rw [hux] at hm3
            rw [List.mem_singleton] at hm3
            subst hm3
            simp
          · rw [hux] at hm3
            exact absurd hm3 (List.not_mem_nil w)
        · rw [if_neg htx] at hm3
          exact absurd hm3 (List.not_mem_nil w)
    · rw [tsWarn] at hm3
      rcases hsu : opts.ts with _ | x
      · rw [hsu] at hm3
        dsimp only at hm3
        exact absurd hm3 (List.not_mem_nil w)
      · rw [hsu] at hm3
        dsimp only at hm3
        by_cases htx : strTruthy x = true
        · rw [if_pos htx] at hm3
          rcases hux : d x with _ | iso
          · rw [hux] at hm3
            rw [List.mem_singleton] at hm3
            subst hm3
            simp
          · rw [hux] at hm3
            exact absurd hm3 (List.not_mem_nil w)
        · rw [if_neg htx] at hm3
          exact absurd hm3 (List.not_mem_nil w)
  · intro hne
    rw [← hsc]
    show (if opts.detectPages = some (JSVal.vBool false) then false else true) = true
    rw [if_neg hne]
  · intro x hx htx hux
    constructor
    · rw [← hsc]
      show optUrlVal u opts none = none
      simp [optUrlVal, hx, htx, hux]
    · rw [← hwarns]
      refine List.mem_append.mpr (Or.inl ?_)
      refine List.mem_append.mpr (Or.inl ?_)
      refine List.mem_append.mpr (Or.inl ?_)
      simp [urlWarn, hx, htx, hux]
  · intro x hx htx hux
    constructor
    · rw [← hsc]
      show optTsVal d opts nowIso = nowIso
      simp [optTsVal, hx, htx, hux]
    · rw [← hwarns]
      refine List.mem_append.mpr (Or.inl ?_)
      refine List.mem_append.mpr (Or.inl ?_)
      refine List.mem_append.mpr (Or.inr ?_)
      simp [tsWarn, hx, htx, hux]
  · intro x hx htx hux
    constructor
    · rw [← hsc]
      show optSignUrlVal u opts none = none
      simp [optSignUrlVal, hx, htx, hux]
    · rw [← hwarns]
      refine List.mem_append.mpr (Or.inl ?_)
      refine List.mem_append.mpr (Or.inr ?_)
      simp [signWarn, hx, htx, hux]
  · intro x hx hst hj
    constructor
    · rw [← hsc]
      show optExtrasVal j opts none = none
      simp [optExtrasVal, hx, hst, hj]
    · rw [← hwarns]
      refine List.mem_append.mpr (Or.inr ?_)
      simp [extrasWarn, hx, hst, hj]
  · intro x hx hst
    constructor
    · rw [← hsc]
      show optExtrasVal j opts none = none
      simp [optExtrasVal, hx, hst]
    · rw [← hwarns]
      intro hmem
      rcases List.mem_append.mp hmem with hm | hm
      · rcases List.mem_append.mp hm with hm2 | hm2
        · rcases List.mem_append.mp hm2 with hm3 | hm3
          · exact notmem_urlWarn u opts _ (by decide) hm3
          · exact notmem_tsWarn d opts _ (by decide) hm3
        · exact notmem_signWarn u opts _ (by decide) hm2
      · rw [extrasWarn, hx] at hm
        dsimp only at hm
        rw [if_neg (by simp [hst])] at hm
        exact absurd hm (List.not_mem_nil _)
  · rw [waczConstructor,
      filterBlockingOptions_error_no_warc g2 pwd opts _ f hf ht hg2]
  · have hf' : ({ opts with output := some "x.zip" } : WACZOptions).file
        = some f := hf
    have ho' : strEndsWith
        (strToLower (outputVal pwd { opts with output := some "x.zip" }))
        ".wacz" = false := by
      show strEndsWith (strToLower (strTrim "x.zip")) ".wacz" = false
      decide
    rw [waczConstructor,
      filterBlockingOptions_error_output g pwd _ _ f hf' ht hw ho']

theorem C8_amended_option_validation_witness :
    (∀ w ∈ (ctorOk (waczConstructor gW uW dW jW "/p" NOW_ISO optsC8)).2,
        w ∈ ["\"url\" provided is invalid. Skipping.",
        "\"ts\" provided is invalid. Skipping.",
        "\"signingUrl\" provided is not a valid url. Skipping.",
        "\"datapackageExtras\" provided is not JSON-serializable object. Skipping."])
    ∧ (optsC8.detectPages ≠ some (JSVal.vBool false) →
        (ctorOk (waczConstructor gW uW dW jW "/p" NOW_ISO optsC8)).1.detectPages = true)
    ∧ (∀ x, optsC8.url = some x → strTruthy x = true → uW x = none →
        (ctorOk (waczConstructor gW uW dW jW "/p" NOW_ISO optsC8)).1.url = none
        ∧ "\"url\" provided is invalid. Skipping."
            ∈ (ctorOk (waczConstructor gW uW dW jW "/p" NOW_ISO optsC8)).2)
    ∧ (∀ x, optsC8.ts = some x → strTruthy x = true → dW x = none →
        (ctorOk (waczConstructor gW uW dW jW "/p" NOW_ISO optsC8)).1.ts = NOW_ISO
        ∧ "\"ts\" provided is invalid. Skipping."
            ∈ (ctorOk (waczConstructor gW uW dW jW "/p" NOW_ISO optsC8)).2)
    ∧ (∀ x, optsC8.signingUrl = some x → strTruthy x = true → uW x = none →
        (ctorOk (waczConstructor gW uW dW jW "/p" NOW_ISO optsC8)).1.signingUrl = none
        ∧ "\"signingUrl\" provided is not a valid url. Skipping."
            ∈ (ctorOk (waczConstructor gW uW dW jW "/p" NOW_ISO optsC8)).2)
    ∧ (∀ x, optsC8.datapackageExtras = some x → strTruthy x = true →
        jW x = false →
        (ctorOk (waczConstructor gW uW dW jW "/p" NOW_ISO optsC8)).1.datapackageExtras = none
        ∧ "\"datapackageExtras\" provided is not JSON-serializable object. Skipping."
            ∈ (ctorOk (waczConstructor gW uW dW jW "/p" NOW_ISO optsC8)).2)
    ∧ (∀ x, optsC8.datapackageExtras = some x → strTruthy x = false →
        (ctorOk (waczConstructor gW uW dW jW "/p" NOW_ISO optsC8)).1.datapackageExtras = none
        ∧ "\"datapackageExtras\" provided is not JSON-serializable object. Skipping."
            ∉ (ctorOk (waczConstructor gW uW dW jW "/p" NOW_ISO optsC8)).2)
    ∧ waczConstructor gEmpty uW dW jW "/p" NOW_ISO optsC8
        = Except.error "\"file\" must be a valid path leading to at least 1 .warc or .warc.gz file."
    ∧ waczConstructor gW uW dW jW "/p" NOW_ISO { optsC8 with output := some "x.zip" }
        = Except.error "\"output\" must be a valid \"*.wacz\" path on which the program can write." :=
  C8_amended_option_validation gW gEmpty uW dW jW "/p" NOW_ISO optsC8 "*.warc"
    (ctorOk (waczConstructor gW uW dW jW "/p" NOW_ISO optsC8)).1
    (ctorOk (waczConstructor gW uW dW jW "/p" NOW_ISO optsC8)).2
    rfl (by decide) (by decide) (by decide) rfl (by decide)

/-- C7 counterexample: the assertion accepts a response whose `software`
is the empty string and whose `created` is not an ISO-8601 date string
(it only contains one), and `requestSignature` returns it — so
acceptance does not imply "software is a non-empty string". -/
theorem C7_counterexample :
    assertValidWACZSignatureFormat (fun _ => false) sdCex = true
    ∧ sdCex.software = some ""
    ∧ specISO8601Anchored "xx2023-01-01T00:00:00Zyy" = false
    ∧ requestSignature (fun _ => false) true sdCex sRS = Except.ok sdCex := by
  refine ⟨by decide, rfl, by decide, rfl⟩

theorem assertValid_iff (pem : String → Bool) (d : SignedData) :
    assertValidWACZSignatureFormat pem d = true ↔
      (optMatch sha256Match d.hash = true
       ∧ optMatch iso8601Match d.created = true
       ∧ stringMatch d.software = true
       ∧ optMatch base64Match d.signature = true
       ∧ ((optTruthy d.publicKey = true ∧ optMatch base64Match d.publicKey = true)
          ∨ (optTruthy d.publicKey = false
             ∧ optMatch domainMatch d.domain = true
             ∧ optMatch pem d.domainCert = true
             ∧ optMatch base64Match d.timeSignature = true
             ∧ optMatch pem d.timestampCert = true))
       ∧ (optTruthy d.crossSignedCert = true →
            optMatch pem d.crossSignedCert = true)) := by
  rw [assertValidWACZSignatureFormat]
  by_cases hpk : optTruthy d.publicKey = true
  · by_cases hcs : optTruthy d.crossSignedCert = true
    · simp [hpk, hcs, Bool.and_eq_true]
      tauto
    · simp only [Bool.not_eq_true] at hcs
      simp [hpk, hcs, Bool.and_eq_true]
      tauto
  · have hpk' : optTruthy d.publicKey = false := bool_not_true hpk
    by_cases hcs : optTruthy d.crossSignedCert = true
    · simp [hpk', hcs, Bool.and_eq_true]
      tauto
    · simp only [Bool.not_eq_true] at hcs
      simp [hpk', hcs, Bool.and_eq_true]
      tauto

/-- C7 (amended): `requestSignature` returns exactly the responses that
pass `assertValidWACZSignatureFormat`, and throws on all others; the
assertion holds iff `hash` matches the anchored `sha256:`+64-hex
pattern, `created` *contains* an ISO-8601 date-time (the regex is
unanchored), `software` is any string — the empty string passes —,
`signature` matches the (anchored) Base64 pattern, and either
`publicKey` is truthy Base64 or all four domain-mode fields validate;
`crossSignedCert` is checked only when truthy. -/
theorem C7_amended_signature_format (pem : String → Bool) (fetchOk : Bool)
    (d : SignedData) (s : RunState)
    (hready : s.ready = true)
    (hfind : ∃ r, s.resources.find? (fun r => r.name == "datapackage.json")
        = some r ∧ strTruthy r.hash = true)
    (hdate : s.datapackageDate ≠ none)
    (hfetch : fetchOk = true) :
    (requestSignature pem fetchOk d s = Except.ok d ↔
      (optMatch sha256Match d.hash = true
       ∧ optMatch iso8601Match d.created = true
       ∧ stringMatch d.software = true
       ∧ optMatch base64Match d.signature = true
       ∧ ((optTruthy d.publicKey = true ∧ optMatch base64Match d.publicKey = true)
          ∨ (optTruthy d.publicKey = false
             ∧ optMatch domainMatch d.domain = true
             ∧ optMatch pem d.domainCert = true
             ∧ optMatch base64Match d.timeSignature = true
             ∧ optMatch pem d.timestampCert = true))
       ∧ (optTruthy d.crossSignedCert = true →
            optMatch pem d.crossSignedCert = true)))
    ∧ (assertValidWACZSignatureFormat pem d = false →
        requestSignature pem fetchOk d s
          = Except.error "Server returned an invalid WACZ signature.") := by
  obtain ⟨r, hr, hhash⟩ := hfind
  rw [requestSignature, readyStateCheck, if_pos hready]
  simp only [hr]
  have hcond : ¬(s.datapackageDate = none ∨ ¬strTruthy r.hash = true) := by
    rw [hhash]
    simp [hdate]
  rw [if_neg hcond, hfetch]
  constructor
  · rw [← assertValid_iff pem d]
    by_cases hv : assertValidWACZSignatureFormat pem d = true
    · simp [hv]
    · have hv' := bool_not_true hv
      simp [hv']
  · intro hv
    rw [hv]
    simp

theorem C7_amended_signature_format_witness :
    (requestSignature pemTrue true sdOK sRS = Except.ok sdOK ↔
      (optMatch sha256Match sdOK.hash = true
       ∧ optMatch iso8601Match sdOK.created = true
       ∧ stringMatch sdOK.software = true
       ∧ optMatch base64Match sdOK.signature = true
       ∧ ((optTruthy sdOK.publicKey = true
            ∧ optMatch base64Match sdOK.publicKey = true)
          ∨ (optTruthy sdOK.publicKey = false
             ∧ optMatch domainMatch sdOK.domain = true
             ∧ optMatch pemTrue sdOK.domainCert = true
             ∧ optMatch base64Match sdOK.timeSignature = true
             ∧ optMatch pemTrue sdOK.timestampCert = true))
       ∧ (optTruthy sdOK.crossSignedCert = true →
            optMatch pemTrue sdOK.crossSignedCert = true)))
    ∧ (assertValidWACZSignatureFormat pemTrue sdOK = false →
        requestSignature pemTrue true sdOK sRS
          = Except.error "Server returned an invalid WACZ signature.") :=
  C7_amended_signature_format pemTrue true sdOK sRS rfl
    ⟨{ name := "datapackage.json", path := "datapackage.json",
       hash := "sha256:aa", bytes := some 2 }, rfl, by decide⟩
    (by decide) rfl

/-! ## Pipeline step facts (used for C2 and C9) -/

theorem strTruthy_sha (x : String) : strTruthy ("sha256:" ++ x) = true := by
  rw [strTruthy]
  have hne : ("sha256:" ++ x) ≠ "" := by
    intro hcontra
    have h2 : ("sha256:" ++ x).data = "".data := congrArg String.data hcontra
    rw [String.data_append] at h2
    simp at h2
  rw [beq_eq_false_iff_ne.mpr hne]
  rfl

theorem except_bind_ok {α β : Type} (x : α) (f : α → Except String β) :
    (Except.ok x : Except String α) >>= f = f x := rfl

theorem except_bind_error {α β : Type} (e : String)
    (f : α → Except String β) :
    (Except.error e : Except String α) >>= f = Except.error e := rfl

/-- On an already-finalized archive the first append step of the
pipeline fails with its catch message. -/
theorem writeIndexesToZip_finalized (gz : String → List Nat)
    (hexsha : List Nat → String) (s : RunState) (h : s.ready = true)
    (hz : s.zipFinalized = true) :
    writeIndexesToZip gz hexsha s
      = Except.error "An error occurred while generating \"indexes/index.cdx.gz\"." := by
  rw [writeIndexesToZip, readyStateCheck, if_pos h, if_pos hz]

theorem indexWARCs_ok (results : List WorkerResult) (s : RunState)
    (h : s.ready = true) :
    indexWARCs results s = Except.ok (runOk (indexWARCs results s))
    ∧ (runOk (indexWARCs results s)).ready = true
    ∧ (runOk (indexWARCs results s)).detectPages = s.detectPages
    ∧ (runOk (indexWARCs results s)).signingUrl = s.signingUrl
    ∧ (runOk (indexWARCs results s)).WARCs = s.WARCs
    ∧ (runOk (indexWARCs results s)).datapackageDate = s.datapackageDate
    ∧ (runOk (indexWARCs results s)).resources = s.resources
    ∧ (runOk (indexWARCs results s)).zipFinalized = s.zipFinalized := by
  rw [indexWARCs, readyStateCheck, if_pos h]
  exact ⟨rfl, h, rfl, rfl, rfl, rfl, rfl, rfl⟩

theorem harvestArraysFromTrees_ok (s : RunState) (h : s.ready = true) :
    harvestArraysFromTrees s = Except.ok (runOk (harvestArraysFromTrees s))
    ∧ (runOk (harvestArraysFromTrees s)).ready = true
    ∧ (runOk (harvestArraysFromTrees s)).detectPages = s.detectPages
    ∧ (runOk (harvestArraysFromTrees s)).signingUrl = s.signingUrl
    ∧ (runOk (harvestArraysFromTrees s)).WARCs = s.WARCs
    ∧ (runOk (harvestArraysFromTrees s)).datapackageDate = s.datapackageDate
    ∧ (runOk (harvestArraysFromTrees s)).resources = s.resources
    ∧ (runOk (harvestArraysFromTrees s)).zipFinalized = s.zipFinalized := by
  rw [harvestArraysFromTrees, readyStateCheck, if_pos h]
  exact ⟨rfl, h, rfl, rfl, rfl, rfl, rfl, rfl⟩

theorem writeIndexesToZip_ok (gz : String → List Nat)
    (hexsha : List Nat → String) (s : RunState) (h : s.ready = true)
    (hzf : s.zipFinalized = false) :
    writeIndexesToZip gz hexsha s
        = Except.ok (runOk (writeIndexesToZip gz hexsha s))
    ∧ (runOk (writeIndexesToZip gz hexsha s)).ready = true
    ∧ (runOk (writeIndexesToZip gz hexsha s)).detectPages = s.detectPages
    ∧ (runOk (writeIndexesToZip gz hexsha s)).signingUrl = s.signingUrl
    ∧ (runOk (writeIndexesToZip gz hexsha s)).WARCs = s.WARCs
    ∧ (runOk (writeIndexesToZip gz hexsha s)).datapackageDate = s.datapackageDate
    ∧ (∃ e1 e2, (runOk (writeIndexesToZip gz hexsha s)).resources
          = s.resources ++ [e1, e2]
        ∧ e1.name = "index.cdx.gz" ∧ e2.name = "index.idx")
    ∧ (runOk (writeIndexesToZip gz hexsha s)).zipFinalized = s.zipFinalized := by
  rw [writeIndexesToZip, readyStateCheck, if_pos h, if_neg (by simp [hzf])]
  exact ⟨rfl, h, rfl, rfl, rfl, rfl, ⟨_, _, rfl, rfl, rfl⟩, rfl⟩

theorem writePagesToZip_ok (hexsha : List Nat → String) (s : RunState)
    (h : s.ready = true) (hzf : s.zipFinalized = false) :
    writePagesToZip hexsha s = Except.ok (runOk (writePagesToZip hexsha s))
    ∧ (runOk (writePagesToZip hexsha s)).ready = true
    ∧ (runOk (writePagesToZip hexsha s)).detectPages = s.detectPages
    ∧ (runOk (writePagesToZip hexsha s)).signingUrl = s.signingUrl
    ∧ (runOk (writePagesToZip hexsha s)).WARCs = s.WARCs
    ∧ (runOk (writePagesToZip hexsha s)).datapackageDate = s.datapackageDate
    ∧ (∃ e, (runOk (writePagesToZip hexsha s)).resources = s.resources ++ [e]
        ∧ e.name = "pages.jsonl")
    ∧ (runOk (writePagesToZip hexsha s)).zipFinalized = s.zipFinalized := by
  rw [writePagesToZip, readyStateCheck, if_pos h, if_neg (by simp [hzf])]
  exact ⟨rfl, h, rfl, rfl, rfl, rfl, ⟨_, rfl, rfl⟩, rfl⟩

theorem writeWARCsToZip_ok (shaFile : String → String)
    (fileSize : String → Nat) (s : RunState) (h : s.ready = true)
    (hzf : s.zipFinalized = false) :
    writeWARCsToZip shaFile fileSize s
        = Except.ok (runOk (writeWARCsToZip shaFile fileSize s))
    ∧ (runOk (writeWARCsToZip shaFile fileSize s)).ready = true
    ∧ (runOk (writeWARCsToZip shaFile fileSize s)).detectPages = s.detectPages
    ∧ (runOk (writeWARCsToZip shaFile fileSize s)).signingUrl = s.signingUrl
    ∧ (runOk (writeWARCsToZip shaFile fileSize s)).WARCs = s.WARCs
    ∧ (runOk (writeWARCsToZip shaFile fileSize s)).datapackageDate
        = s.datapackageDate
    ∧ (runOk (writeWARCsToZip shaFile fileSize s)).resources
        = s.resources ++ s.WARCs.map (fun w =>
            { name := basenameOf w
              path := "archive/" ++ basenameOf w
              hash := shaFile w
              bytes := some (fileSize w) })
    ∧ (runOk (writeWARCsToZip shaFile fileSize s)).zipFinalized
        = s.zipFinalized := by
  rw [writeWARCsToZip, readyStateCheck, if_pos h,
    if_neg (by simp [hzf])]
  exact ⟨rfl, h, rfl, rfl, rfl, rfl, rfl, rfl⟩

theorem writeDatapackageToZip_ok (renderDatapackage : Datapackage → String)
    (hexsha : List Nat → String) (createdNow software : String)
    (s : RunState) (h : s.ready = true) (hzf : s.zipFinalized = false) :
    writeDatapackageToZip renderDatapackage hexsha createdNow software s
        = Except.ok (runOk (writeDatapackageToZip renderDatapackage hexsha
            createdNow software s))
    ∧ (runOk (writeDatapackageToZip renderDatapackage hexsha createdNow
        software s)).ready = true
    ∧ (runOk (writeDatapackageToZip renderDatapackage hexsha createdNow
        software s)).detectPages = s.detectPages
    ∧ (runOk (writeDatapackageToZip renderDatapackage hexsha createdNow
        software s)).signingUrl = s.signingUrl
    ∧ (runOk (writeDatapackageToZip renderDatapackage hexsha createdNow
        software s)).WARCs = s.WARCs
    ∧ (runOk (writeDatapackageToZip renderDatapackage hexsha createdNow
        software s)).datapackageDate = some createdNow
    ∧ (∃ e, (runOk (writeDatapackageToZip renderDatapackage hexsha createdNow
          software s)).resources = s.resources ++ [e]
        ∧ e.name = "datapackage.json" ∧ strTruthy e.hash = true)
    ∧ (runOk (writeDatapackageToZip renderDatapackage hexsha createdNow
        software s)).zipFinalized = s.zipFinalized := by
  rw [writeDatapackageToZip, readyStateCheck, if_pos h, if_neg (by simp [hzf])]
  refine ⟨rfl, h, rfl, rfl, rfl, rfl, ⟨_, rfl, rfl, strTruthy_sha _⟩, rfl⟩

theorem finalizeZip_ok (s : RunState) (h : s.ready = true) :
    finalizeZip s = Except.ok (runOk (finalizeZip s))
    ∧ (runOk (finalizeZip s)).ready = true
    ∧ (runOk (finalizeZip s)).detectPages = s.detectPages
    ∧ (runOk (finalizeZip s)).signingUrl = s.signingUrl
    ∧ (runOk (finalizeZip s)).WARCs = s.WARCs
    ∧ (runOk (finalizeZip s)).resources = s.resources
    ∧ (runOk (finalizeZip s)).zipFinalized = true := by
  rw [finalizeZip, readyStateCheck, if_pos h]
  exact ⟨rfl, h, rfl, rfl, rfl, rfl, rfl⟩

theorem digest_ok (pem : String → Bool) (fok : Bool) (json : SignedData)
    (s : RunState) (h : s.ready = true) (hzf : s.zipFinalized = false)
    (hfind : ∃ r, s.resources.find? (fun r => r.name == "datapackage.json")
        = some r ∧ strTruthy r.hash = true)
    (hdate : s.datapackageDate ≠ none)
    (hsig : s.signingUrl.isSome = true →
      fok = true ∧ assertValidWACZSignatureFormat pem json = true) :
    writeDatapackageDigestToZip pem fok json s
      = Except.ok { s with zipNames := s.zipNames ++ ["datapackage-digest.json"] } := by
  obtain ⟨r, hr, hhash⟩ := hfind
  rw [writeDatapackageDigestToZip, readyStateCheck, if_pos h,
    if_neg (by simp [hzf])]
  simp only [hr]
  by_cases hsu : s.signingUrl.isSome = true
  · obtain ⟨hfok, hv⟩ := hsig hsu
    rw [if_pos hsu]
    rw [requestSignature, readyStateCheck, if_pos h]
    simp only [hr]
    have hcond : ¬(s.datapackageDate = none ∨ ¬strTruthy r.hash = true) := by
      rw [hhash]
      simp [hdate]
    rw [if_neg hcond, hfok]
    simp [hv]
  · have hsu' := bool_not_true hsu
    rw [if_neg (by rw [hsu']; exact Bool.false_ne_true)]

theorem find?_dp_warc_map (shaFile : String → String)
    (fileSize : String → Nat) (ws : List String)
    (hw : ∀ w ∈ ws, basenameOf w = "datapackage.json" →
      strTruthy (shaFile w) = true) :
    ∀ r, (ws.map (fun w =>
        ({ name := basenameOf w, path := "archive/" ++ basenameOf w,
           hash := shaFile w, bytes := some (fileSize w) }
          : WACZDatapackageResource))).find?
        (fun r => r.name == "datapackage.json") = some r →
      strTruthy r.hash = true := by
  induction ws with
  | nil =>
      intro r hr
      simp at hr
  | cons w ws ih =>
      intro r hr
      rw [List.map_cons, List.find?_cons] at hr
      dsimp only at hr
      by_cases hpw : (basenameOf w == "datapackage.json") = true
      · rw [hpw] at hr
        rw [Option.some.injEq] at hr
        have hbn : basenameOf w = "datapackage.json" := by simpa using hpw
        have := hw w (List.mem_cons_self w ws) hbn
        rw [← hr]
        exact this
      · rw [bool_not_true hpw] at hr
        exact ih (fun w' hw' => hw w' (List.mem_cons_of_mem w hw')) r hr

theorem find_dp_combined (A : List WACZDatapackageResource)
    (e1 e2 e3 edp : WACZDatapackageResource) (ws : List String)
    (shaFile : String → String) (fileSize : String → Nat)
    (hres : ∀ r, A.find? (fun r => r.name == "datapackage.json") = some r →
      strTruthy r.hash = true)
    (he1 : e1.name = "index.cdx.gz") (he2 : e2.name = "index.idx")
    (he3 : e3.name = "pages.jsonl")
    (hedp : edp.name = "datapackage.json") (hedph : strTruthy edp.hash = true)
    (hw : ∀ w ∈ ws, basenameOf w = "datapackage.json" →
      strTruthy (shaFile w) = true) :
    ∃ r, ((((A ++ [e1, e2]) ++ [e3]) ++ ws.map (fun w =>
        ({ name := basenameOf w, path := "archive/" ++ basenameOf w,
           hash := shaFile w, bytes := some (fileSize w) }
          : WACZDatapackageResource))) ++ [edp]).find?
        (fun r => r.name == "datapackage.json") = some r
      ∧ strTruthy r.hash = true := by
  have hp1 : (e1.name == "datapackage.json") = false := by
    rw [he1]
    decide
  have hp2 : (e2.name == "datapackage.json") = false := by
    rw [he2]
    decide
  have hp3 : (e3.name == "datapackage.json") = false := by
    rw [he3]
    decide
  have hmid : ([e1, e2] : List WACZDatapackageResource).find?
      (fun r => r.name == "datapackage.json") = none := by
    rw [List.find?_cons, List.find?_cons]
    rw [hp1, hp2]
    rfl
  have hmid3 : ([e3] : List WACZDatapackageResource).find?
      (fun r => r.name == "datapackage.json") = none := by
    rw [List.find?_cons]
    rw [hp3]
    rfl
  have hdp : ([edp] : List WACZDatapackageResource).find?
      (fun r => r.name == "datapackage.json") = some edp := by
    rw [List.find?_cons]
    rw [show (edp.name == "datapackage.json") = true from by rw [hedp]; rfl]
  cases h0 : A.find? (fun r => r.name == "datapackage.json") with
  | some r0 =>
      refine ⟨r0, ?_, hres r0 h0⟩
      simp [List.find?_append, h0, Option.or]
  | none =>
      cases h4 : (ws.map (fun w =>
          ({ name := basenameOf w, path := "archive/" ++ basenameOf w,
             hash := shaFile w, bytes := some (fileSize w) }
            : WACZDatapackageResource))).find?
          (fun r => r.name == "datapackage.json") with
      | some r4 =>
          refine ⟨r4, ?_, find?_dp_warc_map shaFile fileSize ws hw r4 h4⟩
          simp [List.find?_append, h0, hmid, hmid3, h4, Option.or, he1, he2, he3]
      | none =>
          refine ⟨edp, ?_, hedph⟩
          simp [List.find?_append, h0, hmid, hmid3, h4, hdp, Option.or, he1,
            he2, he3, hedp]

set_option maxRecDepth 16000 in
theorem process_ok (env : ProcessEnv) (s : RunState) (h : s.ready = true)
    (hzf : s.zipFinalized = false)
    (hsig : s.signingUrl.isSome = true →
      env.fetchOk = true
        ∧ assertValidWACZSignatureFormat env.pem env.signResponse = true)
    (hres : ∀ r, s.resources.find? (fun r => r.name == "datapackage.json")
        = some r → strTruthy r.hash = true)
    (hwarc : ∀ w ∈ s.WARCs, basenameOf w = "datapackage.json" →
      strTruthy (env.shaFile w) = true) :
    ∃ s', process env s = Except.ok s'
      ∧ s'.ready = true
      ∧ s'.detectPages = s.detectPages
      ∧ s'.signingUrl = s.signingUrl
      ∧ s'.WARCs = s.WARCs
      ∧ (∀ r, s'.resources.find? (fun r => r.name == "datapackage.json")
          = some r → strTruthy r.hash = true)
      ∧ s'.zipFinalized = true := by
  obtain ⟨h1ok, h1r, h1d, h1su, h1w, h1dd, h1res, h1z⟩ :=
    indexWARCs_ok env.results s h
  set s1 := runOk (indexWARCs env.results s) with hs1
  obtain ⟨h2ok, h2r, h2d, h2su, h2w, h2dd, h2res, h2z⟩ :=
    harvestArraysFromTrees_ok s1 h1r
  set s2 := runOk (harvestArraysFromTrees s1) with hs2
  have hz2 : s2.zipFinalized = false := by rw [h2z, h1z]; exact hzf
  obtain ⟨h3ok, h3r, h3d, h3su, h3w, h3dd, h3resx, h3z⟩ :=
    writeIndexesToZip_ok env.gz env.hexsha s2 h2r hz2
  set s3 := runOk (writeIndexesToZip env.gz env.hexsha s2) with hs3
  have hz3 : s3.zipFinalized = false := by rw [h3z]; exact hz2
  obtain ⟨h4ok, h4r, h4d, h4su, h4w, h4dd, h4resx, h4z⟩ :=
    writePagesToZip_ok env.hexsha s3 h3r hz3
  set s4 := runOk (writePagesToZip env.hexsha s3) with hs4
  have hz4 : s4.zipFinalized = false := by rw [h4z]; exact hz3
  obtain ⟨h5ok, h5r, h5d, h5su, h5w, h5dd, h5res, h5z⟩ :=
    writeWARCsToZip_ok env.shaFile env.fileSize s4 h4r hz4
  set s5 := runOk (writeWARCsToZip env.shaFile env.fileSize s4) with hs5
  have hz5 : s5.zipFinalized = false := by rw [h5z]; exact hz4
  obtain ⟨h6ok, h6r, h6d, h6su, h6w, h6dd, h6resx, h6z⟩ :=
    writeDatapackageToZip_ok env.renderDatapackage env.hexsha env.createdNow
      env.software s5 h5r hz5
  set s6 := runOk (writeDatapackageToZip env.renderDatapackage env.hexsha
    env.createdNow env.software s5) with hs6
  have hz6 : s6.zipFinalized = false := by rw [h6z]; exact hz5
  obtain ⟨e1, e2, h3res, he1, he2⟩ := h3resx
  obtain ⟨e3, h4res, he3⟩ := h4resx
  obtain ⟨edp, h6res, hedpn, hedph⟩ := h6resx
  have hs6res : s6.resources
      = (((s.resources ++ [e1, e2]) ++ [e3]) ++ s.WARCs.map (fun w =>
          ({ name := basenameOf w, path := "archive/" ++ basenameOf w,
             hash := env.shaFile w, bytes := some (env.fileSize w) }
            : WACZDatapackageResource))) ++ [edp] := by
    rw [h6res, h5res, h4res, h3res, h2res, h1res, h4w, h3w, h2w, h1w]
  have hfind6 := find_dp_combined s.resources e1 e2 e3 edp s.WARCs
    env.shaFile env.fileSize hres he1 he2 he3 hedpn hedph hwarc
  rw [← hs6res] at hfind6
  have hdate6 : s6.datapackageDate ≠ none := by
    rw [h6dd]
    simp
  have hsu6 : s6.signingUrl = s.signingUrl := by
    rw [h6su, h5su, h4su, h3su, h2su, h1su]
  have hdig := digest_ok env.pem env.fetchOk env.signResponse s6 h6r hz6 hfind6
    hdate6 (by rw [hsu6]; exact hsig)
  obtain ⟨h8ok, h8r, h8d, h8su, h8w, h8res, h8z⟩ :=
    finalizeZip_ok { s6 with zipNames := s6.zipNames ++ ["datapackage-digest.json"] } h6r
  refine ⟨runOk (finalizeZip { s6 with
      zipNames := s6.zipNames ++ ["datapackage-digest.json"] }), ?_, h8r, ?_, ?_, ?_, ?_, h8z⟩
  · rw [process, readyStateCheck, if_pos h]
    rw [h1ok, except_bind_ok, h2ok, except_bind_ok, h3ok, except_bind_ok,
      h4ok, except_bind_ok, h5ok, except_bind_ok, h6ok, except_bind_ok,
      hdig, except_bind_ok, h8ok, except_bind_ok]
    rfl
  · rw [h8d]
    show s6.detectPages = s.detectPages
    rw [h6d, h5d, h4d, h3d, h2d, h1d]
  · rw [h8su]
    show s6.signingUrl = s.signingUrl
    exact hsu6
  · rw [h8w]
    show s6.WARCs = s.WARCs
    rw [h6w, h5w, h4w, h3w, h2w, h1w]
  · intro r hr
    rw [h8res] at hr
    obtain ⟨r0, hr0, ht0⟩ := hfind6
    have : ({ s6 with zipNames := s6.zipNames
        ++ ["datapackage-digest.json"] } : RunState).resources = s6.resources := rfl
    rw [this, hr0] at hr
    rw [Option.some.injEq] at hr
    rw [← hr]
    exact ht0

/-- Re-entering the pipeline on a finalized archive passes
`readyStateCheck`, re-runs the indexing and harvest steps, then fails
at the first append of `writeIndexesToZip`. -/
theorem process_second_fails (env : ProcessEnv) (s : RunState)
    (h : s.ready = true) (hz : s.zipFinalized = true) :
    process env s
      = Except.error "An error occurred while generating \"indexes/index.cdx.gz\"." := by
  obtain ⟨h1ok, h1r, _, _, _, _, _, h1z⟩ := indexWARCs_ok env.results s h
  set s1 := runOk (indexWARCs env.results s) with hs1
  obtain ⟨h2ok, h2r, _, _, _, _, _, h2z⟩ := harvestArraysFromTrees_ok s1 h1r
  set s2 := runOk (harvestArraysFromTrees s1) with hs2
  rw [process, readyStateCheck, if_pos h, h1ok, except_bind_ok, h2ok,
    except_bind_ok,
    writeIndexesToZip_finalized env.gz env.hexsha s2 h2r
      (by rw [h2z, h1z]; exact hz),
    except_bind_error]

/-- C2 counterexample: on this concrete instance a completed `process()`
leaves `ready` true — no one-shot flag is cleared — and a second
`process()` call passes `readyStateCheck` and re-enters the pipeline,
failing only when its first append hits the already-finalized archive:
the error is that step's stream-error message, not `AlreadyConsumed`
(no such error exists in the code). -/
theorem C2_counterexample :
    ∃ s1, process env0 s0C2 = Except.ok s1
      ∧ s1.ready = true
      ∧ s1.zipFinalized = true
      ∧ process env0 s1
          = Except.error "An error occurred while generating \"indexes/index.cdx.gz\"." := by
  obtain ⟨s1, hp1, hr1, _, _, _, _, hz1⟩ := process_ok env0 s0C2 rfl rfl
    (by intro hx; simp [s0C2] at hx)
    (by intro r hr; simp [s0C2] at hr)
    (by intro w hw; simp [s0C2] at hw)
  exact ⟨s1, hp1, hr1, hz1, process_second_fails env0 s1 hr1 hz1⟩

/-- C2 (amended): a `WACZ` instance is not one-shot by design and no
`AlreadyConsumed` error exists. The only guard in `process()` is
`readyStateCheck`; `ready` stays `true` after a completed run, so a
second `process()` passes the guard and re-enters the pipeline
(re-running the indexing and harvest steps) — it then fails only
incidentally, when the first append of `writeIndexesToZip` hits the
already-finalized Archiver stream, with that step's catch message
rather than `AlreadyConsumed`. Hypotheses: the state is ready with an
unfinalized archive, when a signing endpoint is configured the signer
interaction succeeds, and any pre-existing `datapackage.json` resource
entry and WARC basename collision carries a truthy hash. -/
theorem C2_amended_not_one_shot (env : ProcessEnv) (s : RunState)
    (h : s.ready = true) (hzf : s.zipFinalized = false)
    (hsig : s.signingUrl.isSome = true →
      env.fetchOk = true
        ∧ assertValidWACZSignatureFormat env.pem env.signResponse = true)
    (hres : ∀ r, s.resources.find? (fun r => r.name == "datapackage.json")
        = some r → strTruthy r.hash = true)
    (hwarc : ∀ w ∈ s.WARCs, basenameOf w = "datapackage.json" →
      strTruthy (env.shaFile w) = true) :
    ∃ s1, process env s = Except.ok s1
      ∧ s1.ready = true
      ∧ s1.zipFinalized = true
      ∧ process env s1
          = Except.error "An error occurred while generating \"indexes/index.cdx.gz\"." := by
  obtain ⟨s1, hp1, hr1, _, _, _, _, hz1⟩ := process_ok env s h hzf hsig hres hwarc
  exact ⟨s1, hp1, hr1, hz1, process_second_fails env s1 hr1 hz1⟩

theorem C2_amended_not_one_shot_witness :
    ∃ s1, process env0 s0C2 = Except.ok s1
      ∧ s1.ready = true
      ∧ s1.zipFinalized = true
      ∧ process env0 s1
          = Except.error "An error occurred while generating \"indexes/index.cdx.gz\"." :=
  C2_amended_not_one_shot env0 s0C2 rfl rfl
    (by intro hx; simp [s0C2] at hx)
    (by intro r hr; simp [s0C2] at hr)
    (by intro w hw; simp [s0C2] at hw)

set_option maxRecDepth 16000 in
theorem process_detectPages (env : ProcessEnv) (s s₂ : RunState)
    (hp : process env s = Except.ok s₂) : s₂.detectPages = s.detectPages := by
  by_cases h : s.ready = true
  case neg =>
    rw [process, readyStateCheck, if_neg h] at hp
    exact Except.noConfusion hp
  case pos =>
    obtain ⟨h1ok, h1r, h1d, h1su, h1w, h1dd, h1res, h1z⟩ :=
      indexWARCs_ok env.results s h
    set s1 := runOk (indexWARCs env.results s) with hs1
    obtain ⟨h2ok, h2r, h2d, h2su, h2w, h2dd, h2res, h2z⟩ :=
      harvestArraysFromTrees_ok s1 h1r
    set s2 := runOk (harvestArraysFromTrees s1) with hs2
    by_cases hzt : s.zipFinalized = true
    case pos =>
      rw [process, readyStateCheck, if_pos h, h1ok, except_bind_ok, h2ok,
        except_bind_ok,
        writeIndexesToZip_finalized env.gz env.hexsha s2 h2r
          (by rw [h2z, h1z]; exact hzt),
        except_bind_error] at hp
      exact Except.noConfusion hp
    case neg =>
      have hz2 : s2.zipFinalized = false := by
        rw [h2z, h1z]
        exact bool_not_true hzt
      obtain ⟨h3ok, h3r, h3d, h3su, h3w, h3dd, h3resx, h3z⟩ :=
        writeIndexesToZip_ok env.gz env.hexsha s2 h2r hz2
      set s3 := runOk (writeIndexesToZip env.gz env.hexsha s2) with hs3
      have hz3 : s3.zipFinalized = false := by rw [h3z]; exact hz2
      obtain ⟨h4ok, h4r, h4d, h4su, h4w, h4dd, h4resx, h4z⟩ :=
        writePagesToZip_ok env.hexsha s3 h3r hz3
      set s4 := runOk (writePagesToZip env.hexsha s3) with hs4
      have hz4 : s4.zipFinalized = false := by rw [h4z]; exact hz3
      obtain ⟨h5ok, h5r, h5d, h5su, h5w, h5dd, h5res, h5z⟩ :=
        writeWARCsToZip_ok env.shaFile env.fileSize s4 h4r hz4
      set s5 := runOk (writeWARCsToZip env.shaFile env.fileSize s4) with hs5
      have hz5 : s5.zipFinalized = false := by rw [h5z]; exact hz4
      obtain ⟨h6ok, h6r, h6d, h6su, h6w, h6dd, h6resx, h6z⟩ :=
        writeDatapackageToZip_ok env.renderDatapackage env.hexsha env.createdNow
          env.software s5 h5r hz5
      set s6 := runOk (writeDatapackageToZip env.renderDatapackage env.hexsha
        env.createdNow env.software s5) with hs6
      have hz6 : s6.zipFinalized = false := by rw [h6z]; exact hz5
      have hd6 : s6.detectPages = s.detectPages := by
        rw [h6d, h5d, h4d, h3d, h2d, h1d]
      rw [process, readyStateCheck, if_pos h, h1ok, except_bind_ok, h2ok,
        except_bind_ok, h3ok, except_bind_ok, h4ok, except_bind_ok, h5ok,
        except_bind_ok, h6ok, except_bind_ok] at hp
      rw [writeDatapackageDigestToZip, readyStateCheck, if_pos h6r,
        if_neg (by simp [hz6])] at hp
      cases hf : s6.resources.find? (fun r => r.name == "datapackage.json") with
      | none =>
          simp only [hf] at hp
          exact Except.noConfusion hp
      | some r =>
          simp only [hf] at hp
          by_cases hsu : s6.signingUrl.isSome = true
          · rw [if_pos hsu] at hp
            cases hrs : requestSignature env.pem env.fetchOk env.signResponse s6 with
            | error e =>
                rw [hrs] at hp
                exact Except.noConfusion hp
            | ok j =>
                rw [hrs] at hp
                rw [except_bind_ok, finalizeZip, readyStateCheck, if_pos h6r,
                  except_bind_ok] at hp
                rw [Except.ok.injEq] at hp
                rw [← hp]
                exact hd6
          · rw [if_neg hsu] at hp
            rw [except_bind_ok, finalizeZip, readyStateCheck, if_pos h6r,
              except_bind_ok] at hp
            rw [Except.ok.injEq] at hp
            rw [← hp]
            exact hd6

/-- C9: `addPage` sets `detectPages = false` *before* validating its
`url` argument: when the URL is invalid the call throws, inserts nothing
into `pagesTree`, yet `detectPages` is already `false` — and no pipeline
step of a subsequent `process()` ever sets it back. -/
theorem C9_addPage_disables_detectPages
    (urlParse dateParse : String → Option String) (uuid : String)
    (s : RunState) (url : String) (title ts : Option String)
    (hready : s.ready = true) (hurl : urlParse url = none) :
    addPage urlParse dateParse uuid s url title ts
      = ({ s with detectPages := false },
         Except.error "\"url\" must be a valid url.")
    ∧ ({ s with detectPages := false }).pagesTree = s.pagesTree
    ∧ (∀ env s₂, process env { s with detectPages := false } = Except.ok s₂ →
        s₂.detectPages = false) := by
  refine ⟨?_, rfl, ?_⟩
  · rw [addPage, readyStateCheck, if_pos hready]
    simp only [hurl]
  · intro env s₂ hp
    rw [process_detectPages env _ s₂ hp]

theorem C9_addPage_disables_detectPages_witness :
    addPage uW dW "u" s0C2 "" none none
      = ({ s0C2 with detectPages := false },
         Except.error "\"url\" must be a valid url.")
    ∧ ({ s0C2 with detectPages := false }).pagesTree = s0C2.pagesTree
    ∧ (∀ env s₂, process env { s0C2 with detectPages := false }
          = Except.ok s₂ → s₂.detectPages = false) :=
  C9_addPage_disables_detectPages uW dW "u" s0C2 "" none none rfl rfl

/-! ## C10: construction-time file-system effects -/

/-- C10: constructing a `WACZ` instance with valid required options
deletes any pre-existing file at the output path and opens a fresh
write stream to it (before `process()` is ever called), and no other
path of the file system is affected by the construction. -/
theorem C10_construct_deletes_and_opens (g : String → List String)
    (u d : String → Option String) (j : String → Bool) (pwd nowIso : String)
    (opts : WACZOptions) (sc : RunState) (warns : List String) (fs : FS)
    (hc : waczConstructor g u d j pwd nowIso opts = Except.ok (sc, warns)) :
    constructorFS sc.output fs sc.output = some []
    ∧ (∀ p, p ≠ sc.output → constructorFS sc.output fs p = fs p)
    ∧ sc.outputStreamOpen = some sc.output := by
  refine ⟨?_, ?_, ?_⟩
  · rw [constructorFS, createWriteStreamFS]
    simp
  · intro p hp
    rw [constructorFS, createWriteStreamFS, unlinkSyncFS]
    simp [hp]
  · rw [waczConstructor] at hc
    cases hb : filterBlockingOptions g pwd opts { ts := nowIso } with
    | error e =>
        rw [hb] at hc
        exact Except.noConfusion hc
    | ok sB =>
        rw [hb] at hc
        dsimp only at hc
        rw [Except.ok.injEq, Prod.mk.injEq] at hc
        obtain ⟨hsc, _⟩ := hc
        rw [← hsc]

theorem C10_construct_deletes_and_opens_witness :
    constructorFS (ctorOk (waczConstructor gW uW dW jW "/p" NOW_ISO optsC6)).1.output
        fs0 (ctorOk (waczConstructor gW uW dW jW "/p" NOW_ISO optsC6)).1.output
      = some []
    ∧ (∀ p, p ≠ (ctorOk (waczConstructor gW uW dW jW "/p" NOW_ISO optsC6)).1.output →
        constructorFS (ctorOk (waczConstructor gW uW dW jW "/p" NOW_ISO optsC6)).1.output
          fs0 p = fs0 p)
    ∧ (ctorOk (waczConstructor gW uW dW jW "/p" NOW_ISO optsC6)).1.outputStreamOpen
        = some (ctorOk (waczConstructor gW uW dW jW "/p" NOW_ISO optsC6)).1.output :=
  C10_construct_deletes_and_opens gW uW dW jW "/p" NOW_ISO optsC6
    (ctorOk (waczConstructor gW uW dW jW "/p" NOW_ISO optsC6)).1
    (ctorOk (waczConstructor gW uW dW jW "/p" NOW_ISO optsC6)).2
    fs0 rfl
